import Mathlib

/-!
# cini: configuration resolver and scaffold emitter

A shallow embedding of `src/cini.cpp`.  The program is one `main` function; it is
split here along its two phases.

* `resolveConfig` embeds lines 15-102: the `argc < 2` check, the defaults, the
  detection of flagged mode, the flag loop and the positional parsing.
* `emit` embeds lines 123-315: the directories and files written for a resolved
  configuration, as a list of filesystem effects.
* `layout` embeds lines 104-121, the project directory and name, and `main` puts the three
  together with the exit status.

`std::string` is modelled by `String` (a sequence of characters; every literal the
program compares against is ASCII, so comparing characters and comparing bytes
agree).  `argv[1] .. argv[argc-1]` is the list `args`, hence `argc = args.length + 1`.
-/

namespace Cini

/-! ## Strings -/

/-- The call `str.substr(pos)`: the characters of `str` from index `pos` on.  Every call
in the source is guarded by `startsWith`, so `pos ≤ str.size()` and nothing is thrown. -/
def substr (str : String) (pos : Nat) : String :=
  String.mk (str.data.drop pos)

/-- The call `str.substr(0, n)`: the first `n` characters of `str` (all of it when shorter). -/
def substr0 (str : String) (n : Nat) : String :=
  String.mk (str.data.take n)

/-- Line 10-12: `return str.substr(0, prefix.size()) == prefix;`. -/
def startsWith (str pre : String) : Bool :=
  decide (substr0 str pre.length = pre)

/-! ## std::stoi -/

/-- The function `isspace` of the C locale: space, `\t`, `\n`, `\v`, `\f`, `\r`. -/
def isspace (ch : Char) : Bool :=
  ch.toNat = 32 || (9 ≤ ch.toNat && ch.toNat ≤ 13)

/-- The function `isdigit`: the characters `0` to `9`. -/
def isdigit (ch : Char) : Bool :=
  48 ≤ ch.toNat && ch.toNat ≤ 57

/-- Largest value of `int`. -/
def INT_MAX : Int := 2147483647

/-- Smallest value of `int`. -/
def INT_MIN : Int := -2147483648

/-- Value of a run of decimal digits, most significant first. -/
def digitsValue (ds : List Char) : Nat :=
  ds.foldl (fun acc d => 10 * acc + (d.toNat - 48)) 0

/-- The sign `strtol` reads at the head of the text: whether it is negative, and what follows. -/
def readSign : List Char → Bool × List Char
  | '-' :: r => (true, r)
  | '+' :: r => (false, r)
  | r => (false, r)

/-- The call `std::stoi(s)` (base 10, no position out-parameter), which is `strtol` followed
by a range check: leading white space is skipped, one optional sign is read, then the longest
run of decimal digits; whatever follows the digits is ignored.  `none` stands for the two
exceptions: `std::invalid_argument` when there is no digit to convert, `std::out_of_range`
when the value does not fit an `int`. -/
def stoi (s : String) : Option Int :=
  let afterSpace := s.data.dropWhile isspace
  let sign := readSign afterSpace
  let ds := sign.2.takeWhile isdigit
  if ds = [] then none
  else
    let v : Int := if sign.1 then - (digitsValue ds : Int) else (digitsValue ds : Int)
    if v < INT_MIN ∨ INT_MAX < v then none else some v

/-! ## Configuration resolver -/

/-- The local variables of `main` that hold the parsed options (lines 27-35). -/
structure Config where
  projectArg : String
  linking : String
  language : String
  compiler : String
  strict_compiler : Int
  build_system : String
  init_git_repo : Bool
  documentation : Bool
  test_flag : Bool
deriving DecidableEq

/-- Lines 26-35: the defaults, for both positional and flagged modes. -/
def defaults : Config where
  projectArg := ""
  linking := "static"
  language := "c++"
  compiler := "clang++"
  strict_compiler := 1
  build_system := "cmake"
  init_git_repo := true
  documentation := true
  test_flag := false

/-- How the resolver can end without a configuration: `usage` is `return 1` after a message
on `std::cerr` (lines 15-24 and 72-76); `stoiThrow` is the exception of `std::stoi` leaving
`main` uncaught (the process is terminated, not with exit code 1). -/
inductive ResolveError where
  | usage
  | stoiThrow
deriving DecidableEq

deriving instance DecidableEq for Except

/-- Lines 38-43: some argument starts with `--`. -/
def flaggedMode (args : List String) : Bool :=
  args.any (fun arg => startsWith arg "--")

/-- Lines 48-70: the body of the flag loop for one argument.  `none`: `std::stoi` threw. -/
def flagStep (c : Config) (arg : String) : Option Config :=
  if startsWith arg "--name=" then some { c with projectArg := substr arg 7 }
  else if startsWith arg "--link=" then some { c with linking := substr arg 7 }
  else if startsWith arg "--lang=" then some { c with language := substr arg 7 }
  else if startsWith arg "--compiler=" then some { c with compiler := substr arg 11 }
  else if startsWith arg "--strict=" then
    match stoi (substr arg 9) with
    | none => none
    | some n => some { c with strict_compiler := n }
  else if startsWith arg "--build=" then some { c with build_system := substr arg 8 }
  else if arg = "--git" then some { c with init_git_repo := true }
  else if arg = "--docs" then some { c with documentation := true }
  else if arg = "--test" then some { c with test_flag := true }
  else if startsWith arg "--" = false ∧ c.projectArg = "" then some { c with projectArg := arg }
  else some c

/-- Lines 47-71: the flag loop over `argv[1] .. argv[argc-1]`, left to right. -/
def flagLoop (c : Config) : List String → Option Config
  | [] => some c
  | arg :: rest =>
    match flagStep c arg with
    | none => none
    | some c1 => flagLoop c1 rest

/-- The element `argv[i]` for `1 ≤ i < argc`. -/
def argvAt (args : List String) (i : Nat) : String :=
  args.getD (i - 1) ""

/-- Lines 78-101: positional parsing.  `none`: `std::stoi` threw. -/
def positional (args : List String) : Option Config :=
  let argc := args.length + 1
  let c0 : Config := { defaults with projectArg := argvAt args 1 }
  let c1 : Config := if argc > 2 then { c0 with linking := argvAt args 2 } else c0
  let c2 : Config := if argc > 3 then { c1 with language := argvAt args 3 } else c1
  let c3 : Config := if argc > 4 then { c2 with compiler := argvAt args 4 } else c2
  let r4 : Option Config :=
    if argc > 5 then
      match stoi (argvAt args 5) with
      | none => none
      | some n => some { c3 with strict_compiler := n }
    else some c3
  match r4 with
  | none => none
  | some c4 =>
    let c5 : Config := if argc > 6 then { c4 with build_system := argvAt args 6 } else c4
    let c6 : Config :=
      if argc > 7 then { c5 with init_git_repo := decide (argvAt args 7 = "yes") }
      else { c5 with init_git_repo := true }
    let c7 : Config :=
      if argc > 8 then { c6 with documentation := decide (argvAt args 8 = "yes") }
      else { c6 with documentation := true }
    let c8 : Config :=
      if argc > 9 then { c7 with test_flag := decide (argvAt args 9 = "yes") }
      else { c7 with test_flag := false }
    some c8

/-- Lines 15-102 of `main`: the resolved configuration, or the way the process ends. -/
def resolveConfig (args : List String) : Except ResolveError Config :=
  if args.length + 1 < 2 then Except.error ResolveError.usage
  else if flaggedMode args then
    match flagLoop defaults args with
    | none => Except.error ResolveError.stoiThrow
    | some c => if c.projectArg = "" then Except.error ResolveError.usage else Except.ok c
  else
    match positional args with
    | none => Except.error ResolveError.stoiThrow
    | some c => Except.ok c

/-! ## Scaffold emitter -/

/-- One side effect of the emitter.  A path is the list of segments appended to `projectPath`
with `operator/`: `projectPath / "src" / "main.c"` is `["src", "main.c"]`. -/
inductive Effect where
  | create_directories (path : List String)
  | write (path : List String) (content : String)
  | system (command : String)
deriving DecidableEq

/-- Lines 134-138: what is streamed into `src/main.c`. -/
def mainCText : String :=
  "#include <stdio.h>\n\n" ++ "int main() \x7b\n" ++ "    printf(\"Hello, World!\\n\");\n" ++
    "    return 0;\n" ++ "\x7d\n"

/-- Lines 143-147: what is streamed into `src/main.cpp`. -/
def mainCppText : String :=
  "#include <iostream>\n\n" ++ "int main() \x7b\n" ++
    "    std::cout << \"Hello, World!\" << std::endl;\n" ++ "    return 0;\n" ++ "\x7d\n"

/-- Lines 130-149: the starter file, `main.c` for the language `c` and `main.cpp` otherwise. -/
def mainFileEffects (c : Config) : List Effect :=
  if c.language = "c" then [Effect.write ["src", "main.c"] mainCText]
  else [Effect.write ["src", "main.cpp"] mainCppText]

/-- Lines 152-155: `linkingFlag`. -/
def linkingFlag (c : Config) : String :=
  if c.linking = "dynamic" then " -shared" else ""

/-- Line 162: `srcFile` of the Makefile branch. -/
def srcFile (c : Config) : String :=
  if c.language = "c" then "main.c" else "main.cpp"

/-- Lines 163-168: `flags` of the Makefile branch. -/
def flags (c : Config) : String :=
  if c.strict_compiler = 1 then " -Wall"
  else if c.strict_compiler = 2 then " -Wall -Wextra -pedantic -fsanitize=address"
  else ""

/-- Lines 171-178: `compileCommand`, the recipe of the target `build`. -/
def compileCommand (projectName : String) (c : Config) : String :=
  if c.language = "c" then
    c.compiler ++ flags c ++ linkingFlag c ++ " -g -std=c11 -o build/" ++ projectName ++
      " src/" ++ srcFile c
  else
    c.compiler ++ flags c ++ linkingFlag c ++ " -g -std=c++23 -o build/" ++ projectName ++
      " src/" ++ srcFile c

/-- Lines 181-184: the four statements that stream into the Makefile, in order. -/
def makefileChunks (projectName : String) (c : Config) : List String :=
  [".PHONY: build run clear\n\n",
   "build:\n\t" ++ compileCommand projectName c ++ "\n\n",
   "run: build\n\t./build/" ++ projectName ++ "\n\n",
   "clear:\n\t@rm -f build/" ++ projectName ++ "\n"]

/-- The content of the Makefile. -/
def makefileText (projectName : String) (c : Config) : String :=
  String.join (makefileChunks projectName c)

/-- Lines 190-231: the statements that stream into CMakeLists.txt, in order; each writes one
line, newline included. -/
def cmakeLines (projectName : String) (c : Config) : List String :=
  ["cmake_minimum_required(VERSION 3.10)\n",
   "project(" ++ projectName ++ ")\n"] ++
  (if c.language = "c" then ["enable_language(C)\n"] else ["enable_language(CXX)\n"]) ++
  ["set(CMAKE_BUILD_TYPE Debug)\n",
   "set(CMAKE_EXPORT_COMPILE_COMMANDS ON)\n"] ++
  (if c.language = "c" then
    (if c.strict_compiler = 1 then ["set(CMAKE_C_FLAGS \"$\x7bCMAKE_C_FLAGS\x7d -Wall\")\n"]
     else if c.strict_compiler = 2 then
       ["set(CMAKE_C_FLAGS \"$\x7bCMAKE_C_FLAGS\x7d -Wall -Wextra -pedantic -fsanitize=address\")\n"]
     else []) ++
    ["set(CMAKE_C_STANDARD 11)\n", "set(CMAKE_C_STANDARD_REQUIRED ON)\n"]
   else
    (if c.strict_compiler = 1 then ["set(CMAKE_CXX_FLAGS \"$\x7bCMAKE_CXX_FLAGS\x7d -Wall\")\n"]
     else if c.strict_compiler = 2 then
       ["set(CMAKE_CXX_FLAGS \"$\x7bCMAKE_CXX_FLAGS\x7d -Wall -Wextra -pedantic -fsanitize=address\")\n"]
     else []) ++
    ["set(CMAKE_CXX_STANDARD 23)\n", "set(CMAKE_CXX_STANDARD_REQUIRED ON)\n"]) ++
  ["add_executable(" ++ projectName ++ " " ++
      (if c.language = "c" then "src/main.c" else "src/main.cpp") ++ ")\n",
   "target_include_directories(" ++ projectName ++ " PRIVATE inc)\n"] ++
  (if c.linking = "dynamic" then
    ["set_target_properties(" ++ projectName ++ " PROPERTIES LINK_FLAGS \"-shared\")\n"]
   else []) ++
  (if c.language ≠ "c" ∧ c.test_flag = true then
    ["enable_testing()\n", "add_subdirectory(test)\n"]
   else [])

/-- The content of CMakeLists.txt. -/
def cmakeText (projectName : String) (c : Config) : String :=
  String.join (cmakeLines projectName c)

/-- Lines 158-233: the build manifest, a Makefile for the build system `make` and a
CMakeLists.txt otherwise. -/
def buildFileEffects (projectName : String) (c : Config) : List Effect :=
  if c.build_system = "make" then [Effect.write ["Makefile"] (makefileText projectName c)]
  else [Effect.write ["CMakeLists.txt"] (cmakeText projectName c)]

/-- Lines 240-247: what is streamed into `test/test.cpp`. -/
def testText : String :=
  "#include <iostream>\n" ++ "#include <cassert>\n\n" ++ "int main() \x7b\n" ++
    "    // Sample test: basic assertion\n" ++ "    assert(1 == 1);\n" ++
    "    std::cout << \"Test passed!\" << std::endl;\n" ++ "    return 0;\n" ++ "\x7d\n"

/-- Lines 236-249: the test directory and the sample test. -/
def testEffects (c : Config) : List Effect :=
  if c.language ≠ "c" ∧ c.test_flag = true then
    [Effect.create_directories ["test"], Effect.write ["test", "test.cpp"] testText]
  else []

/-- Lines 258-272: what is streamed into `.gitignore`. -/
def gitignoreText : String :=
  "# Compiled object files\n" ++ "*.o\n\n" ++ "# Precompiled Headers\n" ++ "*.gch\n\n" ++
    "# Libraries\n" ++ "*.lib\n" ++ "*.a\n" ++ "*.so\n\n" ++ "# Executables\n" ++ "build/\n\n" ++
    "# CMake Files\n" ++ "CMakeFiles/\n" ++ "CMakeCache.txt\n" ++ "cmake_install.cmake\n" ++
    "Makefile\n"

/-- Lines 252-274: `git init` in the project directory, then `.gitignore`. -/
def gitEffects (projectPath : String) (c : Config) : List Effect :=
  if c.init_git_repo = true then
    [Effect.system ("cd " ++ projectPath ++ " && git init"),
     Effect.write [".gitignore"] gitignoreText]
  else []

/-- Lines 279-303: the statements that stream into README.md, in order. -/
def readmeChunks (projectName : String) (c : Config) : List String :=
  ["# " ++ projectName ++ "\n\n" ++ "## Build Instructions\n\n"] ++
  (if c.build_system = "make" then
    ["To compile the project using Make, run:\n\n" ++ "```\nmake build\n```\n\n" ++
      "To run the project, run:\n\n" ++ "```\nmake run\n```\n\n" ++
      "To clean the built binary, run:\n\n" ++ "```\nmake clear\n```\n\n"]
   else
    ["To compile the project using CMake, run:\n\n" ++
      "```\ncmake -B build\ncmake --build build\n```\n\n" ++
      "To run the project, run:\n\n" ++ "```\n./build/" ++ projectName ++ "\n```\n\n"]) ++
  (if c.documentation = true ∧ c.language ≠ "c" then
    ["## Documentation\n\n" ++ "Generate documentation with Doxygen:\n\n" ++
      "```\ndoxygen Doxyfile\n```\n\n"]
   else []) ++
  (if c.language ≠ "c" ∧ c.test_flag = true then
    ["## Running Tests\n\n" ++ "Run tests with:\n\n" ++ "```\nctest\n```\n\n"]
   else [])

/-- The content of README.md. -/
def readmeText (projectName : String) (c : Config) : String :=
  String.join (readmeChunks projectName c)

/-- Lines 310-313: what is streamed into the Doxyfile. -/
def doxyText (projectName : String) : String :=
  "PROJECT_NAME = \"" ++ projectName ++ "\"\n" ++ "INPUT = src/main.cpp\n" ++
    "OUTPUT_DIRECTORY = docs\n" ++ "GENERATE_LATEX = NO\n"

/-- Lines 307-315: the Doxyfile. -/
def doxyEffects (projectName : String) (c : Config) : List Effect :=
  if c.documentation = true ∧ c.language ≠ "c" then
    [Effect.write ["Doxyfile"] (doxyText projectName)]
  else []

/-- Lines 123-315 of `main`: everything done below the project directory `projectPath`
for the project `projectName`, in program order. -/
def emit (projectPath projectName : String) (c : Config) : List Effect :=
  [Effect.create_directories ["src"], Effect.create_directories ["inc"],
   Effect.create_directories ["vendor"], Effect.create_directories ["build"]] ++
  mainFileEffects c ++
  buildFileEffects projectName c ++
  testEffects c ++
  gitEffects projectPath c ++
  [Effect.write ["README.md"] (readmeText projectName c)] ++
  doxyEffects projectName c

/-! ## Project directory and the whole program -/

/-- What `main` reads from its environment: `fs::current_path()` and, for a path,
`fs::exists`. -/
structure Env where
  current_path : String
  pathExists : String → Bool

/-- The backslash character. -/
def backslash : Char := Char.ofNat 92

/-- The member `fs::path::filename()` in the generic (POSIX) format: what follows the last
`/` of the path, which is empty for a path that ends with `/` and the whole path when it has
no `/`. -/
def filename (p : String) : String :=
  String.mk (p.data.reverse.takeWhile (fun ch => decide (ch ≠ '/'))).reverse

/-- The operator `p / q` of `fs::path` in the generic (POSIX) format: `q` when `q` is absolute;
otherwise `q` appended to `p`, after a separator when `p` has a filename. -/
def pathAppend (p q : String) : String :=
  if q.data.head? = some '/' then q
  else if p = "" ∨ p.data.getLast? = some '/' then p ++ q
  else p ++ "/" ++ q

/-- A call that creates the project directory itself, with the path it is given. -/
inductive RootEffect where
  | create_directory (path : String)
  | create_directories (path : String)
deriving DecidableEq

/-- The variables `projectPath` and `projectName` after lines 104-121, and the directory
creation those lines perform. -/
structure Layout where
  projectPath : String
  projectName : String
  rootEffects : List RootEffect
deriving DecidableEq

/-- Lines 104-121: project directory and name. -/
def layout (env : Env) (projectArg : String) : Layout :=
  if projectArg = "." then
    { projectPath := env.current_path
      projectName := filename env.current_path
      rootEffects := [] }
  else if '/' ∈ projectArg.data ∨ backslash ∈ projectArg.data then
    { projectPath := projectArg
      projectName := filename projectArg
      rootEffects :=
        if env.pathExists projectArg = false then [RootEffect.create_directories projectArg]
        else [] }
  else
    { projectPath := pathAppend env.current_path projectArg
      projectName := projectArg
      rootEffects := [RootEffect.create_directory (pathAppend env.current_path projectArg)] }

/-- How the process ends: `main` returns a code, or the exception of `std::stoi` is never
caught and the process is terminated. -/
inductive ExitStatus where
  | returned (code : Nat)
  | terminated
deriving DecidableEq

/-- One run of the program: how it ends, the creation of the project directory, and the
effects below it. -/
structure Run where
  status : ExitStatus
  rootEffects : List RootEffect
  effects : List Effect
deriving DecidableEq

/-- The function `main` (lines 14-320), every filesystem call taken to succeed. -/
def main (env : Env) (args : List String) : Run :=
  match resolveConfig args with
  | Except.error ResolveError.usage =>
    { status := ExitStatus.returned 1, rootEffects := [], effects := [] }
  | Except.error ResolveError.stoiThrow =>
    { status := ExitStatus.terminated, rootEffects := [], effects := [] }
  | Except.ok c =>
    { status := ExitStatus.returned 0
      rootEffects := (layout env c.projectArg).rootEffects
      effects := emit (layout env c.projectArg).projectPath (layout env c.projectArg).projectName c }

/-! ## Vocabulary of the specification -/

/-- The text `sub` occurs in `text` as a contiguous run of characters. -/
def Contains (text sub : String) : Prop :=
  sub.data <:+: text.data

instance (text sub : String) : Decidable (Contains text sub) := by
  unfold Contains
  infer_instance

/-- The newline character. -/
def newline : Char := Char.ofNat 10

/-- The text `l` is a line of `text`: it holds no newline, it starts the text or follows a
newline, and a newline follows it. -/
def IsLineOf (l text : String) : Prop :=
  newline ∉ l.data ∧
  ∃ pre post : List Char, text.data = pre ++ l.data ++ newline :: post ∧
    (pre = [] ∨ ∃ q, pre = q ++ [newline])

/-- The text `x` is written as one line: it ends with a newline and, unless the project name
`name` holds a newline, holds no other. -/
def OneLine (name x : String) : Prop :=
  ∃ q, x.data = q ++ [newline] ∧ (newline ∉ name.data → newline ∉ q)

/-- A text that ends with a newline and holds no other. -/
def litLine (x : String) : Bool :=
  decide (x.data.getLast? = some newline) && decide (newline ∉ x.data.dropLast)

/-- A token the flag loop acts on as a flag: one of the six `--key=` forms or one of the three
switches. -/
def recognisedFlag (t : String) : Bool :=
  startsWith t "--name=" || startsWith t "--link=" || startsWith t "--lang=" ||
    startsWith t "--compiler=" || startsWith t "--strict=" || startsWith t "--build=" ||
    decide (t = "--git") || decide (t = "--docs") || decide (t = "--test")

/-- A token that can give the flag loop a non-empty project name: `--name=v` with `v`
non-empty, or a non-empty token that does not start with `--`. -/
def suppliesName (t : String) : Prop :=
  (startsWith t "--name=" = true ∧ substr t 7 ≠ "") ∨ (startsWith t "--" = false ∧ t ≠ "")

instance (t : String) : Decidable (suppliesName t) := by
  unfold suppliesName
  infer_instance

/-- Some token of `ts` supplies a name and no `--name=` token comes after it in `ts`. -/
def NameSupplied (ts : List String) : Prop :=
  ∃ a u b, ts = a ++ u :: b ∧ suppliesName u ∧ ∀ v ∈ b, startsWith v "--name=" = false

/-- The directory an effect creates, if it creates one. -/
def directoryOf : Effect → Option (List String)
  | Effect.create_directories path => some path
  | _ => none

/-- The directories a list of effects creates below the project directory, in order. -/
def createdDirectories (es : List Effect) : List (List String) :=
  es.filterMap directoryOf

/-- An effect that writes a file of the directory `src`. -/
def isStarterWrite : Effect → Bool
  | Effect.write ("src" :: _) _ => true
  | _ => false

/-- The files a list of effects writes into the directory `src`, in order. -/
def starterWrites (es : List Effect) : List Effect :=
  es.filter isStarterWrite

/-- Lines 295-297: the section of the README on documentation. -/
def docSection : String :=
  "## Documentation\n\n" ++ "Generate documentation with Doxygen:\n\n" ++
    "```\ndoxygen Doxyfile\n```\n\n"

/-- Lines 300-302: the section of the README on tests. -/
def testSection : String :=
  "## Running Tests\n\n" ++ "Run tests with:\n\n" ++ "```\nctest\n```\n\n"

/-- Lines 282-287: the build instructions of the README for Make. -/
def makeInstructions : String :=
  "To compile the project using Make, run:\n\n" ++ "```\nmake build\n```\n\n" ++
    "To run the project, run:\n\n" ++ "```\nmake run\n```\n\n" ++
    "To clean the built binary, run:\n\n" ++ "```\nmake clear\n```\n\n"

/-- Lines 289-292: the build instructions of the README for CMake. -/
def cmakeInstructions (projectName : String) : String :=
  "To compile the project using CMake, run:\n\n" ++
    "```\ncmake -B build\ncmake --build build\n```\n\n" ++
    "To run the project, run:\n\n" ++ "```\n./build/" ++ projectName ++ "\n```\n\n"

/-- The README cut into its lines, each with its newline: `readmeChunks` with every chunk
split after each newline. -/
def readmeLines (projectName : String) (c : Config) : List String :=
  ["# " ++ projectName ++ "\n", "\n", "## Build Instructions\n", "\n"] ++
  (if c.build_system = "make" then
    ["To compile the project using Make, run:\n", "\n", "```\n", "make build\n", "```\n", "\n",
     "To run the project, run:\n", "\n", "```\n", "make run\n", "```\n", "\n",
     "To clean the built binary, run:\n", "\n", "```\n", "make clear\n", "```\n", "\n"]
   else
    ["To compile the project using CMake, run:\n", "\n", "```\n", "cmake -B build\n",
     "cmake --build build\n", "```\n", "\n",
     "To run the project, run:\n", "\n", "```\n", "./build/" ++ projectName ++ "\n", "```\n",
     "\n"]) ++
  (if c.documentation = true ∧ c.language ≠ "c" then
    ["## Documentation\n", "\n", "Generate documentation with Doxygen:\n", "\n", "```\n",
     "doxygen Doxyfile\n", "```\n", "\n"]
   else []) ++
  (if c.language ≠ "c" ∧ c.test_flag = true then
    ["## Running Tests\n", "\n", "Run tests with:\n", "\n", "```\n", "ctest\n", "```\n", "\n"]
   else [])

/-- A line of CMakeLists.txt that sets `CMAKE_C_FLAGS` or `CMAKE_CXX_FLAGS`. -/
def isFlagsLine (x : String) : Bool :=
  startsWith x "set(CMAKE_C_FLAGS " || startsWith x "set(CMAKE_CXX_FLAGS "

/-- Following the specification (flags of CMakeLists.txt mirror the Makefile): the lines that
set the compiler flags when they carry exactly `flags`, the flags of the Makefile recipe:
no line when `flags` is empty, otherwise one line that appends `flags` to `CMAKE_C_FLAGS` for
the language `c` and to `CMAKE_CXX_FLAGS` for every other language. -/
def mirroredFlagLines (c : Config) : List String :=
  if flags c = "" then []
  else if c.language = "c" then
    ["set(CMAKE_C_FLAGS \"$\x7bCMAKE_C_FLAGS\x7d" ++ flags c ++ "\")\n"]
  else
    ["set(CMAKE_CXX_FLAGS \"$\x7bCMAKE_CXX_FLAGS\x7d" ++ flags c ++ "\")\n"]

/-! ## Lemmas on strings -/

theorem startsWith_iff (s p : String) : startsWith s p = true ↔ p.data <+: s.data := by
  unfold startsWith substr0
  rw [decide_eq_true_iff, List.prefix_iff_eq_take, String.ext_iff]
  simp only [String.length]
  exact eq_comm

theorem startsWith_append_self (p s : String) : startsWith (p ++ s) p = true := by
  rw [startsWith_iff, String.data_append]
  exact List.prefix_append _ _

theorem substr_append_length (p s : String) : substr (p ++ s) p.length = s := by
  unfold substr
  rw [String.ext_iff]
  show List.drop p.data.length (p ++ s).data = s.data
  rw [String.data_append, List.drop_left]

theorem startsWith_append_short (p s q : String) (h : q.length ≤ p.length) :
    startsWith (p ++ s) q = startsWith p q := by
  rw [Bool.eq_iff_iff, startsWith_iff, startsWith_iff, String.data_append]
  constructor
  · intro hq
    exact List.prefix_of_prefix_length_le hq (List.prefix_append _ _) h
  · intro hq
    exact hq.trans (List.prefix_append _ _)

theorem startsWith_append_long (p s q : String) (h : p.length ≤ q.length)
    (hne : startsWith q p = false) : startsWith (p ++ s) q = false := by
  rw [← Bool.not_eq_true, startsWith_iff, String.data_append]
  intro hq
  have hp : p.data <+: q.data :=
    List.prefix_of_prefix_length_le (List.prefix_append _ _) hq h
  rw [← startsWith_iff, hne] at hp
  exact Bool.noConfusion hp

theorem startsWith_trans (s p q : String) (hp : startsWith s p = true)
    (hq : startsWith p q = true) : startsWith s q = true := by
  rw [startsWith_iff] at *
  exact hq.trans hp

/-! ## Lemmas on the resolver -/

theorem resolveConfig_single (name : String) (h : startsWith name "--" = false) :
    resolveConfig [name] = Except.ok { defaults with projectArg := name } := by
  have hflag : flaggedMode [name] = false := by simp [flaggedMode, h]
  simp [resolveConfig, hflag, positional, argvAt, defaults]

theorem flagStep_name_append (c : Config) (v : String) :
    flagStep c ("--name=" ++ v) = some { c with projectArg := v } := by
  have h1 : startsWith ("--name=" ++ v) "--name=" = true := startsWith_append_self _ _
  have h2 : substr ("--name=" ++ v) 7 = v := substr_append_length "--name=" v
  simp [flagStep, h1, h2]

theorem flagStep_build_append (c : Config) (b : String) :
    flagStep c ("--build=" ++ b) = some { c with build_system := b } := by
  have h1 : startsWith ("--build=" ++ b) "--name=" = false := by
    rw [startsWith_append_short _ _ _ (by decide)]; decide
  have h2 : startsWith ("--build=" ++ b) "--link=" = false := by
    rw [startsWith_append_short _ _ _ (by decide)]; decide
  have h3 : startsWith ("--build=" ++ b) "--lang=" = false := by
    rw [startsWith_append_short _ _ _ (by decide)]; decide
  have h4 : startsWith ("--build=" ++ b) "--compiler=" = false :=
    startsWith_append_long _ _ _ (by decide) (by decide)
  have h5 : startsWith ("--build=" ++ b) "--strict=" = false :=
    startsWith_append_long _ _ _ (by decide) (by decide)
  have h6 : startsWith ("--build=" ++ b) "--build=" = true := startsWith_append_self _ _
  have h7 : substr ("--build=" ++ b) 8 = b := substr_append_length "--build=" b
  simp [flagStep, h1, h2, h3, h4, h5, h6, h7]

theorem not_startsWith_of_bare (t k : String) (hk : startsWith k "--" = true)
    (h : startsWith t "--" = false) : startsWith t k = false := by
  cases hkt : startsWith t k
  · rfl
  · rw [startsWith_trans t k "--" hkt hk] at h
    exact Bool.noConfusion h

theorem flagStep_bare (c : Config) (t : String) (h : startsWith t "--" = false) :
    flagStep c t = if c.projectArg = "" then some { c with projectArg := t } else some c := by
  have h1 := not_startsWith_of_bare t "--name=" (by decide) h
  have h2 := not_startsWith_of_bare t "--link=" (by decide) h
  have h3 := not_startsWith_of_bare t "--lang=" (by decide) h
  have h4 := not_startsWith_of_bare t "--compiler=" (by decide) h
  have h5 := not_startsWith_of_bare t "--strict=" (by decide) h
  have h6 := not_startsWith_of_bare t "--build=" (by decide) h
  have h7 : t ≠ "--git" := by
    intro e; rw [e] at h; exact absurd h (by decide)
  have h8 : t ≠ "--docs" := by
    intro e; rw [e] at h; exact absurd h (by decide)
  have h9 : t ≠ "--test" := by
    intro e; rw [e] at h; exact absurd h (by decide)
  simp [flagStep, h, h1, h2, h3, h4, h5, h6, h7, h8, h9]

theorem flagStep_unrecognised (c : Config) (t : String) (hr : recognisedFlag t = false)
    (hf : startsWith t "--" = true) : flagStep c t = some c := by
  simp only [recognisedFlag, Bool.or_eq_false_iff, decide_eq_false_iff_not] at hr
  obtain ⟨⟨⟨⟨⟨⟨⟨⟨h1, h2⟩, h3⟩, h4⟩, h5⟩, h6⟩, h7⟩, h8⟩, h9⟩ := hr
  simp [flagStep, h1, h2, h3, h4, h5, h6, h7, h8, h9, hf]

theorem flagStep_projectArg_cases (c c1 : Config) (t : String) (h : flagStep c t = some c1) :
    (startsWith t "--name=" = true ∧ c1.projectArg = substr t 7) ∨
    (startsWith t "--name=" = false ∧ c1.projectArg = c.projectArg) ∨
    (startsWith t "--name=" = false ∧ startsWith t "--" = false ∧ c.projectArg = "" ∧
      c1.projectArg = t) := by
  by_cases h1 : startsWith t "--name=" = true
  · left
    simp only [flagStep, h1, if_true] at h
    exact ⟨h1, by cases h; rfl⟩
  · right
    have h1f : startsWith t "--name=" = false := by simpa using h1
    by_cases hb : startsWith t "--" = false ∧ c.projectArg = ""
    · rw [flagStep_bare c t hb.1] at h
      simp only [hb.2, if_true] at h
      right
      exact ⟨h1f, hb.1, hb.2, by cases h; rfl⟩
    · left
      refine ⟨h1f, ?_⟩
      unfold flagStep at h
      simp only [h1f, hb, Bool.false_eq_true, if_false] at h
      split at h
      · cases h; rfl
      · split at h
        · cases h; rfl
        · split at h
          · cases h; rfl
          · split at h
            · split at h
              · exact Option.noConfusion h
              · cases h; rfl
            · split at h
              · cases h; rfl
              · split at h
                · cases h; rfl
                · split at h
                  · cases h; rfl
                  · split at h
                    · cases h; rfl
                    · cases h; rfl

theorem flagStep_total (c : Config) (t : String)
    (h : startsWith t "--strict=" = true → stoi (substr t 9) ≠ none) :
    ∃ c1, flagStep c t = some c1 := by
  unfold flagStep
  split
  · exact ⟨_, rfl⟩
  · split
    · exact ⟨_, rfl⟩
    · split
      · exact ⟨_, rfl⟩
      · split
        · exact ⟨_, rfl⟩
        · split
          · rename_i h5
            split
            · rename_i hnone
              exact absurd hnone (h h5)
            · exact ⟨_, rfl⟩
          · split
            · exact ⟨_, rfl⟩
            · split
              · exact ⟨_, rfl⟩
              · split
                · exact ⟨_, rfl⟩
                · split
                  · exact ⟨_, rfl⟩
                  · split
                    · exact ⟨_, rfl⟩
                    · exact ⟨_, rfl⟩

theorem flagLoop_append (a b : List String) :
    ∀ c : Config, flagLoop c (a ++ b) = (flagLoop c a).bind (fun c1 => flagLoop c1 b) := by
  induction a with
  | nil => intro c; rfl
  | cons t a ih =>
    intro c
    simp only [List.cons_append, flagLoop]
    cases flagStep c t with
    | none => rfl
    | some c1 => exact ih c1

theorem flagLoop_total (ts : List String) :
    ∀ c : Config, (∀ t ∈ ts, startsWith t "--strict=" = true → stoi (substr t 9) ≠ none) →
      ∃ c1, flagLoop c ts = some c1 := by
  induction ts with
  | nil => intro c _; exact ⟨c, rfl⟩
  | cons t ts ih =>
    intro c h
    obtain ⟨c1, h1⟩ := flagStep_total c t (h t (List.mem_cons_self _ _))
    obtain ⟨c2, h2⟩ := ih c1 (fun u hu => h u (List.mem_cons_of_mem _ hu))
    exact ⟨c2, by simp only [flagLoop, h1, h2]⟩

theorem flagLoop_projectArg_kept (ts : List String) :
    ∀ c c1 : Config, c.projectArg ≠ "" → (∀ v ∈ ts, startsWith v "--name=" = false) →
      flagLoop c ts = some c1 → c1.projectArg = c.projectArg := by
  induction ts with
  | nil =>
    intro c c1 _ _ h
    cases h
    rfl
  | cons t ts ih =>
    intro c c1 hp hn h
    simp only [flagLoop] at h
    cases hs : flagStep c t with
    | none => rw [hs] at h; exact Option.noConfusion h
    | some c2 =>
      rw [hs] at h
      have ht := hn t (List.mem_cons_self _ _)
      have h2 : c2.projectArg = c.projectArg := by
        rcases flagStep_projectArg_cases c c2 t hs with ⟨a, _⟩ | ⟨_, b⟩ | ⟨_, _, b, _⟩
        · rw [ht] at a; exact Bool.noConfusion a
        · exact b
        · exact absurd b hp
      rw [← h2]
      exact ih c2 c1 (by rw [h2]; exact hp) (fun v hv => hn v (List.mem_cons_of_mem _ hv)) h

theorem flagStep_suppliesName (c c1 : Config) (t : String) (hs : suppliesName t)
    (h : flagStep c t = some c1) : c1.projectArg ≠ "" := by
  rcases hs with ⟨hn, hv⟩ | ⟨hb, ht⟩
  · rcases flagStep_projectArg_cases c c1 t h with ⟨_, a⟩ | ⟨a, _⟩ | ⟨a, _⟩
    · rw [a]; exact hv
    · rw [hn] at a; exact Bool.noConfusion a
    · rw [hn] at a; exact Bool.noConfusion a
  · rw [flagStep_bare c t hb] at h
    split_ifs at h with he
    · cases h; exact ht
    · cases h; exact he

theorem flagLoop_nameSupplied (ts : List String) (c c1 : Config) (hs : NameSupplied ts)
    (h : flagLoop c ts = some c1) : c1.projectArg ≠ "" := by
  obtain ⟨a, u, b, rfl, hu, hb⟩ := hs
  rw [flagLoop_append] at h
  cases ha : flagLoop c a with
  | none => rw [ha] at h; exact Option.noConfusion h
  | some c2 =>
    rw [ha] at h
    simp only [Option.bind, flagLoop] at h
    cases hs : flagStep c2 u with
    | none => rw [hs] at h; exact Option.noConfusion h
    | some c3 =>
      rw [hs] at h
      have h3 := flagStep_suppliesName c2 c3 u hu hs
      rw [flagLoop_projectArg_kept b c3 c1 h3 hb h]
      exact h3

theorem NameSupplied_cons (t : String) (ts : List String) (h : NameSupplied ts) :
    NameSupplied (t :: ts) := by
  obtain ⟨a, u, b, rfl, hu, hb⟩ := h
  exact ⟨t :: a, u, b, rfl, hu, hb⟩

theorem flagLoop_nonempty_inv (ts : List String) :
    ∀ c c1 : Config, flagLoop c ts = some c1 → c1.projectArg ≠ "" →
      (c.projectArg ≠ "" ∧ ∀ v ∈ ts, startsWith v "--name=" = false) ∨ NameSupplied ts := by
  induction ts with
  | nil =>
    intro c c1 h hne
    cases h
    exact Or.inl ⟨hne, fun v hv => by cases hv⟩
  | cons t ts ih =>
    intro c c1 h hne
    simp only [flagLoop] at h
    cases hs : flagStep c t with
    | none => rw [hs] at h; exact Option.noConfusion h
    | some c2 =>
      rw [hs] at h
      rcases ih c2 c1 h hne with ⟨h2, hts⟩ | hsup
      · rcases flagStep_projectArg_cases c c2 t hs with ⟨a, b⟩ | ⟨a, b⟩ | ⟨a, a2, _, b⟩
        · right
          exact ⟨[], t, ts, rfl, Or.inl ⟨a, by rw [← b]; exact h2⟩, hts⟩
        · left
          refine ⟨by rw [← b]; exact h2, ?_⟩
          intro v hv
          rcases List.mem_cons.mp hv with rfl | hv
          · exact a
          · exact hts v hv
        · right
          exact ⟨[], t, ts, rfl, Or.inr ⟨a2, by rw [← b]; exact h2⟩, hts⟩
      · exact Or.inr (NameSupplied_cons t ts hsup)

theorem flagLoop_defaults_nonempty_iff (ts : List String) (c1 : Config)
    (h : flagLoop defaults ts = some c1) : c1.projectArg ≠ "" ↔ NameSupplied ts := by
  constructor
  · intro hne
    rcases flagLoop_nonempty_inv ts defaults c1 h hne with ⟨h0, _⟩ | hs
    · exact absurd rfl h0
    · exact hs
  · intro hs
    exact flagLoop_nameSupplied ts defaults c1 hs h

theorem flaggedMode_length (args : List String) (h : flaggedMode args = true) :
    ¬ (args.length + 1 < 2) := by
  cases args with
  | nil => simp [flaggedMode] at h
  | cons a as => simp

theorem flagLoop_projectArg_empty (ts : List String) :
    ∀ c c1 : Config, c.projectArg = "" →
      (∀ u ∈ ts, startsWith u "--name=" = false ∧ (startsWith u "--" = true ∨ u = "")) →
      flagLoop c ts = some c1 → c1.projectArg = "" := by
  induction ts with
  | nil =>
    intro c c1 hp _ h
    cases h
    exact hp
  | cons t ts ih =>
    intro c c1 hp hts h
    simp only [flagLoop] at h
    cases hs : flagStep c t with
    | none => rw [hs] at h; exact Option.noConfusion h
    | some c2 =>
      rw [hs] at h
      obtain ⟨hn, hf⟩ := hts t (List.mem_cons_self _ _)
      have h2 : c2.projectArg = "" := by
        rcases flagStep_projectArg_cases c c2 t hs with ⟨a, _⟩ | ⟨_, b⟩ | ⟨_, a, _, b⟩
        · rw [hn] at a; exact Bool.noConfusion a
        · rw [b]; exact hp
        · rcases hf with hf | hf
          · rw [hf] at a; exact Bool.noConfusion a
          · rw [b]; exact hf
      exact ih c2 c1 h2 (fun u hu => hts u (List.mem_cons_of_mem _ hu)) h

theorem flagStep_ignored (c : Config) (t : String) (hr : recognisedFlag t = false)
    (h : startsWith t "--" = true ∨ t = "" ∨ c.projectArg ≠ "") : flagStep c t = some c := by
  by_cases hf : startsWith t "--" = true
  · exact flagStep_unrecognised c t hr hf
  · have hb : startsWith t "--" = false := by simpa using hf
    rw [flagStep_bare c t hb]
    rcases h with h | h | h
    · exact absurd h hf
    · subst h
      by_cases he : c.projectArg = ""
      · rw [if_pos he]
        cases c
        simp only at he
        subst he
        rfl
      · rw [if_neg he]
    · rw [if_neg h]

theorem resolveConfig_flagged (args : List String) (h : flaggedMode args = true) :
    resolveConfig args =
      match flagLoop defaults args with
      | none => Except.error ResolveError.stoiThrow
      | some c => if c.projectArg = "" then Except.error ResolveError.usage else Except.ok c := by
  unfold resolveConfig
  rw [if_neg (flaggedMode_length args h), if_pos h]

theorem resolveConfig_flagged_some (args : List String) (c : Config)
    (h : flaggedMode args = true) (h1 : flagLoop defaults args = some c) :
    resolveConfig args =
      if c.projectArg = "" then Except.error ResolveError.usage else Except.ok c := by
  rw [resolveConfig_flagged args h, h1]

theorem flagStep_strict_append (c : Config) (v : String) :
    flagStep c ("--strict=" ++ v) =
      match stoi v with
      | none => none
      | some n => some { c with strict_compiler := n } := by
  have h1 : startsWith ("--strict=" ++ v) "--name=" = false := by
    rw [startsWith_append_short _ _ _ (by decide)]; decide
  have h2 : startsWith ("--strict=" ++ v) "--link=" = false := by
    rw [startsWith_append_short _ _ _ (by decide)]; decide
  have h3 : startsWith ("--strict=" ++ v) "--lang=" = false := by
    rw [startsWith_append_short _ _ _ (by decide)]; decide
  have h4 : startsWith ("--strict=" ++ v) "--compiler=" = false :=
    startsWith_append_long _ _ _ (by decide) (by decide)
  have h5 : startsWith ("--strict=" ++ v) "--strict=" = true := startsWith_append_self _ _
  have h6 : substr ("--strict=" ++ v) 9 = v := substr_append_length "--strict=" v
  simp [flagStep, h1, h2, h3, h4, h5, h6]

theorem resolveConfig_positional (a1 : String) (rest : List String)
    (hflag : flaggedMode (a1 :: rest) = false) (n : Int)
    (hn : match (a1 :: rest)[4]? with
      | some a5 => stoi a5 = some n
      | none => n = 1) :
    resolveConfig (a1 :: rest) = Except.ok
      { projectArg := a1
        linking := (a1 :: rest).getD 1 "static"
        language := (a1 :: rest).getD 2 "c++"
        compiler := (a1 :: rest).getD 3 "clang++"
        strict_compiler := n
        build_system := (a1 :: rest).getD 5 "cmake"
        init_git_repo := (match (a1 :: rest)[6]? with
          | some a7 => decide (a7 = "yes")
          | none => true)
        documentation := (match (a1 :: rest)[7]? with
          | some a8 => decide (a8 = "yes")
          | none => true)
        test_flag := (match (a1 :: rest)[8]? with
          | some a9 => decide (a9 = "yes")
          | none => false) } := by
  rcases rest with _ | ⟨a2, _ | ⟨a3, _ | ⟨a4, rest⟩⟩⟩
  · simp at hn; simp [resolveConfig, hflag, positional, argvAt, defaults, hn]
  · simp at hn; simp [resolveConfig, hflag, positional, argvAt, defaults, hn]
  · simp at hn; simp [resolveConfig, hflag, positional, argvAt, defaults, hn]
  · rcases rest with _ | ⟨a5, rest⟩
    · simp at hn; simp [resolveConfig, hflag, positional, argvAt, defaults, hn]
    · simp at hn
      rcases rest with _ | ⟨a6, _ | ⟨a7, _ | ⟨a8, _ | ⟨a9, rest⟩⟩⟩⟩
      · simp [resolveConfig, hflag, positional, argvAt, defaults, hn]
      · simp [resolveConfig, hflag, positional, argvAt, defaults, hn]
      · simp [resolveConfig, hflag, positional, argvAt, defaults, hn]
      · simp [resolveConfig, hflag, positional, argvAt, defaults, hn]
      · simp [resolveConfig, hflag, positional, argvAt, defaults, hn]

/-! ## Lemmas on generated text -/

theorem infix_append_sep {p a b : List Char} {ch : Char} (hc : ch ∉ p) :
    p <:+: a ++ ch :: b ↔ p <:+: a ∨ p <:+: b := by
  constructor
  · rintro ⟨s, t, h⟩
    rw [List.append_assoc] at h
    rcases List.append_eq_append_iff.mp h with ⟨a1, ha, hpt⟩ | ⟨c1, hs, hpt⟩
    · rcases List.append_eq_append_iff.mp hpt with ⟨a2, ha2, _⟩ | ⟨c2, hp, hcb⟩
      · left
        exact ⟨s, a2, by rw [ha, ha2, List.append_assoc]⟩
      · cases c2 with
        | nil =>
          left
          exact ⟨s, [], by rw [ha, hp]; simp⟩
        | cons y c3 =>
          exfalso
          simp only [List.cons_append, List.cons.injEq] at hcb
          apply hc
          rw [hp, ← hcb.1]
          simp
    · cases c1 with
      | nil =>
        cases p with
        | nil => left; exact List.nil_infix
        | cons x p1 =>
          exfalso
          simp only [List.nil_append, List.cons_append, List.cons.injEq] at hpt
          apply hc
          rw [hpt.1]
          simp
      | cons y c3 =>
        right
        simp only [List.cons_append, List.cons.injEq] at hpt
        exact ⟨c3, t, by rw [hpt.2, List.append_assoc]⟩
  · rintro (⟨s, t, h⟩ | ⟨s, t, h⟩)
    · exact ⟨s, t ++ ch :: b, by rw [← h]; simp⟩
    · exact ⟨a ++ ch :: s, t, by rw [← h]; simp⟩

theorem Contains_template (comp name front mid tail back p : String)
    (hfront : front.data = ' ' :: mid.data ++ ['/']) (hback : back.data = ' ' :: tail.data)
    (hsp : ' ' ∉ p.data) (hsl : '/' ∉ p.data)
    (hmid : ¬ Contains mid p) (htail : ¬ Contains tail p) :
    Contains (comp ++ front ++ name ++ back) p ↔ Contains comp p ∨ Contains name p := by
  unfold Contains at *
  have e : (comp ++ front ++ name ++ back).data =
      comp.data ++ ' ' :: (mid.data ++ '/' :: (name.data ++ ' ' :: tail.data)) := by
    simp [String.data_append, hfront, hback]
  rw [e, infix_append_sep hsp, infix_append_sep hsl, infix_append_sep hsp]
  tauto

theorem Contains_append_left (a b p : String) (h : Contains a p) : Contains (a ++ b) p := by
  unfold Contains at *
  rw [String.data_append]
  exact h.trans (List.prefix_append _ _).isInfix

theorem Contains_append_right (a b p : String) (h : Contains b p) : Contains (a ++ b) p := by
  unfold Contains at *
  rw [String.data_append]
  exact h.trans (List.suffix_append _ _).isInfix

theorem compileCommand_strict2_c (projectName : String) (c : Config)
    (hs : c.strict_compiler = 2) (hl : c.language = "c") (hk : c.linking ≠ "dynamic") :
    compileCommand projectName c =
      c.compiler ++ " -Wall -Wextra -pedantic -fsanitize=address -g -std=c11 -o build/" ++
        projectName ++ " src/main.c" := by
  have e1 : (" -Wall -Wextra -pedantic -fsanitize=address" ++ "" ++ " -g -std=c11 -o build/" :
      String) = " -Wall -Wextra -pedantic -fsanitize=address -g -std=c11 -o build/" := by decide
  have e2 : (" src/" ++ "main.c" : String) = " src/main.c" := by decide
  have e0 : compileCommand projectName c =
      c.compiler ++ " -Wall -Wextra -pedantic -fsanitize=address" ++ "" ++
        " -g -std=c11 -o build/" ++ projectName ++ " src/" ++ "main.c" := by
    unfold compileCommand flags linkingFlag srcFile
    rw [if_pos hl, if_pos hl, if_neg hk, if_neg (by rw [hs]; decide), if_pos hs]
  rw [e0, ← e1, ← e2]
  simp only [String.append_assoc]

theorem ne_of_startsWith (s t q : String) (hs : startsWith s q = true)
    (ht : startsWith t q = false) : s ≠ t := by
  intro e
  rw [e, ht] at hs
  exact Bool.noConfusion hs

theorem lit_append_ne (lit rest t q : String) (hq : q.length ≤ lit.length)
    (hs : startsWith lit q = true) (ht : startsWith t q = false) : lit ++ rest ≠ t :=
  ne_of_startsWith _ _ q (by rw [startsWith_append_short _ _ _ hq]; exact hs) ht

theorem cmakeLines_c_no_test (projectName : String) (c : Config) (hl : c.language = "c") :
    "enable_testing()\n" ∉ cmakeLines projectName c ∧
    "add_subdirectory(test)\n" ∉ cmakeLines projectName c := by
  have hp1 : "project(" ++ projectName ++ ")\n" ≠ "enable_testing()\n" := by
    rw [String.append_assoc]
    exact lit_append_ne _ _ _ "p" (by decide) (by decide) (by decide)
  have hp2 : "project(" ++ projectName ++ ")\n" ≠ "add_subdirectory(test)\n" := by
    rw [String.append_assoc]
    exact lit_append_ne _ _ _ "p" (by decide) (by decide) (by decide)
  have ha1 : "add_executable(" ++ projectName ++ " " ++ "src/main.c" ++ ")\n" ≠
      "enable_testing()\n" := by
    rw [String.append_assoc, String.append_assoc, String.append_assoc]
    exact lit_append_ne _ _ _ "a" (by decide) (by decide) (by decide)
  have ha2 : "add_executable(" ++ projectName ++ " " ++ "src/main.c" ++ ")\n" ≠
      "add_subdirectory(test)\n" := by
    rw [String.append_assoc, String.append_assoc, String.append_assoc]
    exact lit_append_ne _ _ _ "add_e" (by decide) (by decide) (by decide)
  have ht1 : "target_include_directories(" ++ projectName ++ " PRIVATE inc)\n" ≠
      "enable_testing()\n" := by
    rw [String.append_assoc]
    exact lit_append_ne _ _ _ "t" (by decide) (by decide) (by decide)
  have ht2 : "target_include_directories(" ++ projectName ++ " PRIVATE inc)\n" ≠
      "add_subdirectory(test)\n" := by
    rw [String.append_assoc]
    exact lit_append_ne _ _ _ "t" (by decide) (by decide) (by decide)
  have hs1 : "set_target_properties(" ++ projectName ++ " PROPERTIES LINK_FLAGS \"-shared\")\n" ≠
      "enable_testing()\n" := by
    rw [String.append_assoc]
    exact lit_append_ne _ _ _ "s" (by decide) (by decide) (by decide)
  have hs2 : "set_target_properties(" ++ projectName ++ " PROPERTIES LINK_FLAGS \"-shared\")\n" ≠
      "add_subdirectory(test)\n" := by
    rw [String.append_assoc]
    exact lit_append_ne _ _ _ "s" (by decide) (by decide) (by decide)
  unfold cmakeLines
  simp only [hl, if_true, ne_eq, not_true_eq_false, false_and, if_false]
  constructor
  · split_ifs <;> simp [hp1.symm, ha1.symm, ht1.symm, hs1.symm]
  · split_ifs <;> simp [hp2.symm, ha2.symm, ht2.symm, hs2.symm]

theorem compileCommand_strict2_cpp (projectName : String) (c : Config)
    (hs : c.strict_compiler = 2) (hl : c.language ≠ "c") (hk : c.linking ≠ "dynamic") :
    compileCommand projectName c =
      c.compiler ++ " -Wall -Wextra -pedantic -fsanitize=address -g -std=c++23 -o build/" ++
        projectName ++ " src/main.cpp" := by
  have e1 : (" -Wall -Wextra -pedantic -fsanitize=address" ++ "" ++ " -g -std=c++23 -o build/" :
      String) = " -Wall -Wextra -pedantic -fsanitize=address -g -std=c++23 -o build/" := by decide
  have e2 : (" src/" ++ "main.cpp" : String) = " src/main.cpp" := by decide
  have e0 : compileCommand projectName c =
      c.compiler ++ " -Wall -Wextra -pedantic -fsanitize=address" ++ "" ++
        " -g -std=c++23 -o build/" ++ projectName ++ " src/" ++ "main.cpp" := by
    unfold compileCommand flags linkingFlag srcFile
    rw [if_neg hl, if_neg hl, if_neg hk, if_neg (by rw [hs]; decide), if_pos hs]
  rw [e0, ← e1, ← e2]
  simp only [String.append_assoc]

theorem flags_strict2 (c : Config) (hs : c.strict_compiler = 2) :
    flags c = " -Wall -Wextra -pedantic -fsanitize=address" := by
  unfold flags
  rw [if_neg (by rw [hs]; decide), if_pos hs]

theorem Contains_compileCommand_of_flags (projectName : String) (c : Config) (p : String)
    (h : Contains (flags c) p) : Contains (compileCommand projectName c) p := by
  unfold compileCommand
  split
  · exact Contains_append_left _ _ _ (Contains_append_left _ _ _ (Contains_append_left _ _ _
      (Contains_append_left _ _ _ (Contains_append_left _ _ _ (Contains_append_right _ _ _ h)))))
  · exact Contains_append_left _ _ _ (Contains_append_left _ _ _ (Contains_append_left _ _ _
      (Contains_append_left _ _ _ (Contains_append_left _ _ _ (Contains_append_right _ _ _ h)))))

theorem Contains_compileCommand_of_linkingFlag (projectName : String) (c : Config) (p : String)
    (h : Contains (linkingFlag c) p) : Contains (compileCommand projectName c) p := by
  unfold compileCommand
  split
  · exact Contains_append_left _ _ _ (Contains_append_left _ _ _ (Contains_append_left _ _ _
      (Contains_append_left _ _ _ (Contains_append_right _ _ _ h))))
  · exact Contains_append_left _ _ _ (Contains_append_left _ _ _ (Contains_append_left _ _ _
      (Contains_append_left _ _ _ (Contains_append_right _ _ _ h))))

theorem first_sep_unique {a b x y : List Char} {ch : Char} (hb : ch ∉ b)
    (h : a ++ ch :: x = b ++ ch :: y) :
    (a = b ∧ x = y) ∨ ∃ k, a = b ++ ch :: k ∧ y = k ++ ch :: x := by
  rcases List.append_eq_append_iff.mp h with ⟨a1, hba, hx⟩ | ⟨c1, hab, hy⟩
  · cases a1 with
    | nil =>
      left
      simp only [List.nil_append, List.cons.injEq, true_and] at hx
      exact ⟨by rw [hba]; simp, hx⟩
    | cons z a2 =>
      exfalso
      simp only [List.cons_append, List.cons.injEq] at hx
      apply hb
      rw [hba, ← hx.1]
      simp
  · cases c1 with
    | nil =>
      left
      simp only [List.nil_append, List.cons.injEq, true_and] at hy
      exact ⟨by rw [hab]; simp, hy.symm⟩
    | cons z c2 =>
      right
      simp only [List.cons_append, List.cons.injEq] at hy
      exact ⟨c2, by rw [hab, ← hy.1], hy.2⟩

theorem mem_of_line_flatten (ch : Char) (l : List Char) (hl : ch ∉ l) :
    ∀ bodies : List (List Char), (∀ b ∈ bodies, ch ∉ b) →
      ∀ pre post : List Char,
        (bodies.map (fun b => b ++ [ch])).flatten = pre ++ l ++ ch :: post →
        (pre = [] ∨ ∃ q, pre = q ++ [ch]) → l ∈ bodies := by
  intro bodies
  induction bodies with
  | nil =>
    intro _ pre post h _
    simp at h
  | cons b bs ih =>
    intro hbs pre post h hpre
    have hb : ch ∉ b := hbs b (List.mem_cons_self _ _)
    have hrest : ∀ x ∈ bs, ch ∉ x := fun x hx => hbs x (List.mem_cons_of_mem _ hx)
    simp only [List.map_cons, List.flatten_cons, List.append_assoc, List.singleton_append] at h
    rcases hpre with rfl | ⟨q, rfl⟩
    · simp only [List.nil_append] at h
      rcases first_sep_unique hb h.symm with ⟨e, _⟩ | ⟨k, e, _⟩
      · rw [e]; exact List.mem_cons_self _ _
      · exfalso; apply hl; rw [e]; simp
    · simp only [List.append_assoc, List.singleton_append] at h
      rcases first_sep_unique hb h.symm with ⟨_, e⟩ | ⟨k, _, e⟩
      · exact List.mem_cons_of_mem _ (ih hrest [] post (by rw [← e]; simp) (Or.inl rfl))
      · exact List.mem_cons_of_mem _
          (ih hrest (k ++ [ch]) post (by rw [e]; simp) (Or.inr ⟨k, rfl⟩))


theorem OneLine_of_litLine (name x : String) (h : litLine x = true) : OneLine name x := by
  simp only [litLine, Bool.and_eq_true, decide_eq_true_eq] at h
  exact ⟨x.data.dropLast, (List.dropLast_append_getLast? _ h.1).symm, fun _ => h.2⟩

theorem OneLine_wrap (name lit1 lit2 : String) (h1 : newline ∉ lit1.data)
    (h2 : litLine lit2 = true) : OneLine name (lit1 ++ name ++ lit2) := by
  simp only [litLine, Bool.and_eq_true, decide_eq_true_eq] at h2
  refine ⟨lit1.data ++ name.data ++ lit2.data.dropLast, ?_, ?_⟩
  · rw [String.data_append, String.data_append, List.append_assoc, List.append_assoc,
      List.append_assoc, List.dropLast_append_getLast? _ h2.1]
  · intro hn
    simp only [List.mem_append, not_or]
    exact ⟨⟨h1, hn⟩, h2.2⟩

theorem cmakeLines_oneLine (projectName : String) (c : Config) :
    ∀ x ∈ cmakeLines projectName c, OneLine projectName x := by
  have hp : OneLine projectName ("project(" ++ projectName ++ ")\n") :=
    OneLine_wrap _ _ _ (by decide) (by decide)
  have ha1 : OneLine projectName ("add_executable(" ++ projectName ++ " " ++ "src/main.c" ++ ")\n") := by
    rw [String.append_assoc, String.append_assoc ("add_executable(" ++ projectName)]
    exact OneLine_wrap _ _ _ (by decide) (by decide)
  have ha2 : OneLine projectName
      ("add_executable(" ++ projectName ++ " " ++ "src/main.cpp" ++ ")\n") := by
    rw [String.append_assoc, String.append_assoc ("add_executable(" ++ projectName)]
    exact OneLine_wrap _ _ _ (by decide) (by decide)
  have ht : OneLine projectName
      ("target_include_directories(" ++ projectName ++ " PRIVATE inc)\n") :=
    OneLine_wrap _ _ _ (by decide) (by decide)
  have hs : OneLine projectName
      ("set_target_properties(" ++ projectName ++ " PROPERTIES LINK_FLAGS \"-shared\")\n") :=
    OneLine_wrap _ _ _ (by decide) (by decide)
  have hlit : ∀ x : String, litLine x = true → OneLine projectName x :=
    fun x h => OneLine_of_litLine _ x h
  intro x hx
  unfold cmakeLines at hx
  split_ifs at hx <;>
    simp only [List.mem_append, List.mem_cons, List.mem_singleton, List.not_mem_nil,
      or_false, false_or] at hx <;>
    casesm* _ ∨ _ <;> subst x <;>
    first
      | exact hp | exact ha1 | exact ha2 | exact ht | exact hs
      | exact hlit _ (by decide)

theorem newline_data : ("\n" : String).data = [newline] := by decide

theorem mem_of_isLineOf_join (lines : List String) (l : String)
    (hall : ∀ x ∈ lines, ∃ q, x.data = q ++ [newline] ∧ newline ∉ q)
    (h : IsLineOf l (String.join lines)) : l ++ "\n" ∈ lines := by
  obtain ⟨hl, pre, post, htext, hpre⟩ := h
  rw [String.data_join] at htext
  have hmap : lines.map String.data =
      (lines.map (fun x => x.data.dropLast)).map (fun b => b ++ [newline]) := by
    rw [List.map_map]
    apply List.map_congr_left
    intro x hx
    obtain ⟨q, hq, _⟩ := hall x hx
    simp only [Function.comp, hq, List.dropLast_concat]
  rw [hmap] at htext
  have hbodies : ∀ b ∈ lines.map (fun x => x.data.dropLast), newline ∉ b := by
    intro b hb
    obtain ⟨x, hx, rfl⟩ := List.mem_map.mp hb
    obtain ⟨q, hq, hn⟩ := hall x hx
    simp only [hq, List.dropLast_concat]
    exact hn
  have hmem := mem_of_line_flatten newline l.data hl _ hbodies pre post htext hpre
  obtain ⟨x, hx, hxl⟩ := List.mem_map.mp hmem
  obtain ⟨q, hq, _⟩ := hall x hx
  have hx2 : x = l ++ "\n" := by
    rw [String.ext_iff, String.data_append, newline_data, hq]
    simp only [hq, List.dropLast_concat] at hxl
    rw [hxl]
  rw [← hx2]
  exact hx

theorem flatten_ends (lines : List String) (hall : ∀ x ∈ lines, ∃ q, x.data = q ++ [newline]) :
    (lines.map String.data).flatten = [] ∨
      ∃ q, (lines.map String.data).flatten = q ++ [newline] := by
  rcases List.eq_nil_or_concat lines with rfl | ⟨init, last, rfl⟩
  · left; rfl
  · right
    obtain ⟨q, hq⟩ := hall last (by simp)
    exact ⟨(init.map String.data).flatten ++ q, by simp [hq]⟩

theorem isLineOf_join_append (before after : List String) (l : String)
    (hl : newline ∉ l.data) (hbefore : ∀ x ∈ before, ∃ q, x.data = q ++ [newline]) :
    IsLineOf l (String.join (before ++ (l ++ "\n") :: after)) := by
  refine ⟨hl, (before.map String.data).flatten, (after.map String.data).flatten, ?_,
    flatten_ends before hbefore⟩
  rw [String.data_join]
  simp only [List.map_append, List.map_cons, List.flatten_append, List.flatten_cons,
    String.data_append, newline_data, List.append_assoc, List.singleton_append]
  rfl

set_option maxRecDepth 100000

theorem readmeText_eq_join_lines (projectName : String) (c : Config) :
    readmeText projectName c = String.join (readmeLines projectName c) := by
  rw [String.ext_iff]
  unfold readmeText readmeChunks readmeLines
  split_ifs <;>
    simp only [String.data_join, List.map_append, List.map_cons, List.map_nil,
      List.flatten_append, List.flatten_cons, List.flatten_nil, String.data_append,
      List.append_assoc, List.append_nil] <;> rfl


theorem isLineOf_join_of_mem (lines : List String) (l : String) (hl : newline ∉ l.data)
    (hall : ∀ x ∈ lines, ∃ q, x.data = q ++ [newline]) (hm : l ++ "\n" ∈ lines) :
    IsLineOf l (String.join lines) := by
  obtain ⟨before, after, rfl⟩ := List.append_of_mem hm
  exact isLineOf_join_append before after l hl
    (fun x hx => hall x (List.mem_append_left _ hx))

theorem readmeLines_oneLine (projectName : String) (c : Config) :
    ∀ x ∈ readmeLines projectName c, OneLine projectName x := by
  have hp : OneLine projectName ("# " ++ projectName ++ "\n") :=
    OneLine_wrap _ _ _ (by decide) (by decide)
  have hb : OneLine projectName ("./build/" ++ projectName ++ "\n") :=
    OneLine_wrap _ _ _ (by decide) (by decide)
  have hlit : ∀ x : String, litLine x = true → OneLine projectName x :=
    fun x h => OneLine_of_litLine _ x h
  intro x hx
  unfold readmeLines at hx
  split_ifs at hx <;>
    simp only [List.mem_append, List.mem_cons, List.mem_singleton, List.not_mem_nil,
      or_false, false_or] at hx <;>
    casesm* _ ∨ _ <;> subst x <;>
    first
      | exact hp | exact hb
      | exact hlit _ (by decide)

theorem isLineOf_readme_iff (projectName : String) (c : Config) (l : String)
    (hn : newline ∉ projectName.data) :
    IsLineOf l (readmeText projectName c) ↔
      (newline ∉ l.data ∧ l ++ "\n" ∈ readmeLines projectName c) := by
  rw [readmeText_eq_join_lines]
  constructor
  · intro h
    refine ⟨h.1, mem_of_isLineOf_join _ _ ?_ h⟩
    intro x hx
    obtain ⟨q, hq, hq2⟩ := readmeLines_oneLine projectName c x hx
    exact ⟨q, hq, hq2 hn⟩
  · rintro ⟨hl, hm⟩
    apply isLineOf_join_of_mem _ _ hl _ hm
    intro x hx
    obtain ⟨q, hq, _⟩ := readmeLines_oneLine projectName c x hx
    exact ⟨q, hq⟩

theorem readmeLines_mem_iff (projectName : String) (c : Config) :
    ("## Documentation\n" ∈ readmeLines projectName c ↔
      (c.documentation = true ∧ c.language ≠ "c")) ∧
    ("## Running Tests\n" ∈ readmeLines projectName c ↔
      (c.language ≠ "c" ∧ c.test_flag = true)) ∧
    ("make build\n" ∈ readmeLines projectName c ↔ c.build_system = "make") ∧
    ("cmake -B build\n" ∈ readmeLines projectName c ↔ c.build_system ≠ "make") := by
  have h1 : ∀ t : String, startsWith t "# " = false → "# " ++ projectName ++ "\n" ≠ t := by
    intro t ht
    rw [String.append_assoc]
    exact lit_append_ne _ _ _ "# " (by decide) (by decide) ht
  have h2 : ∀ t : String, startsWith t "." = false → "./build/" ++ projectName ++ "\n" ≠ t := by
    intro t ht
    rw [String.append_assoc]
    exact lit_append_ne _ _ _ "." (by decide) (by decide) ht
  have a1 := (h1 "## Documentation\n" (by decide)).symm
  have a2 := (h1 "## Running Tests\n" (by decide)).symm
  have a3 := (h1 "make build\n" (by decide)).symm
  have a4 := (h1 "cmake -B build\n" (by decide)).symm
  have b1 := (h2 "## Documentation\n" (by decide)).symm
  have b2 := (h2 "## Running Tests\n" (by decide)).symm
  have b3 := (h2 "make build\n" (by decide)).symm
  have b4 := (h2 "cmake -B build\n" (by decide)).symm
  unfold readmeLines
  refine ⟨?_, ?_, ?_, ?_⟩ <;> split_ifs <;> simp_all


theorem emit_writes_iff (projectPath projectName : String) (c : Config) :
    ((∃ t, Effect.write ["Doxyfile"] t ∈ emit projectPath projectName c) ↔
      (c.documentation = true ∧ c.language ≠ "c")) ∧
    ((∃ t, Effect.write ["test", "test.cpp"] t ∈ emit projectPath projectName c) ↔
      (c.language ≠ "c" ∧ c.test_flag = true)) ∧
    ((∃ t, Effect.write ["Makefile"] t ∈ emit projectPath projectName c) ↔
      c.build_system = "make") ∧
    ((∃ t, Effect.write ["CMakeLists.txt"] t ∈ emit projectPath projectName c) ↔
      c.build_system ≠ "make") := by
  unfold emit mainFileEffects buildFileEffects testEffects gitEffects doxyEffects
  refine ⟨?_, ?_, ?_, ?_⟩ <;> split_ifs <;> simp_all

theorem readmeChunks_mem_iff (projectName : String) (c : Config) :
    (docSection ∈ readmeChunks projectName c ↔ (c.documentation = true ∧ c.language ≠ "c")) ∧
    (testSection ∈ readmeChunks projectName c ↔ (c.language ≠ "c" ∧ c.test_flag = true)) ∧
    (makeInstructions ∈ readmeChunks projectName c ↔ c.build_system = "make") ∧
    (cmakeInstructions projectName ∈ readmeChunks projectName c ↔ c.build_system ≠ "make") := by
  have hhead : ∀ t : String, startsWith t "# " = false →
      "# " ++ projectName ++ "\n\n" ++ "## Build Instructions\n\n" ≠ t := by
    intro t ht
    rw [String.append_assoc, String.append_assoc]
    exact lit_append_ne _ _ _ "# " (by decide) (by decide) ht
  have hcm : ∀ t : String, startsWith t "To compile the project using C" = false →
      cmakeInstructions projectName ≠ t := by
    intro t ht
    unfold cmakeInstructions
    simp only [String.append_assoc]
    exact lit_append_ne _ _ _ "To compile the project using C" (by decide) (by decide) ht
  have hcm2 : startsWith (cmakeInstructions projectName) "# " = false := by
    unfold cmakeInstructions
    simp only [String.append_assoc]
    rw [startsWith_append_short _ _ _ (by decide)]
    decide
  have a1 := (hhead docSection (by decide)).symm
  have a2 := (hhead testSection (by decide)).symm
  have a3 := (hhead makeInstructions (by decide)).symm
  have a4 := (hhead (cmakeInstructions projectName) hcm2).symm
  have b1 := (hcm docSection (by decide)).symm
  have b2 := (hcm testSection (by decide)).symm
  have b3 := (hcm makeInstructions (by decide)).symm
  have d1 : docSection ≠ testSection := by decide
  have d2 : docSection ≠ makeInstructions := by decide
  have d3 : testSection ≠ makeInstructions := by decide
  have e : readmeChunks projectName c =
      ["# " ++ projectName ++ "\n\n" ++ "## Build Instructions\n\n"] ++
      (if c.build_system = "make" then [makeInstructions]
       else [cmakeInstructions projectName]) ++
      (if c.documentation = true ∧ c.language ≠ "c" then [docSection] else []) ++
      (if c.language ≠ "c" ∧ c.test_flag = true then [testSection] else []) := rfl
  rw [e]
  refine ⟨?_, ?_, ?_, ?_⟩ <;> split_ifs <;>
    simp_all [Ne.symm d1, Ne.symm d2, Ne.symm d3, Ne.symm b1, Ne.symm b2, Ne.symm b3]

/-! ## Lemmas on the project directory -/

theorem filename_spec (p : String) :
    ∃ dir : List Char, p.data = dir ++ (filename p).data ∧ '/' ∉ (filename p).data ∧
      (dir = [] ∨ dir.getLast? = some '/') := by
  let f : Char → Bool := fun ch => decide (ch ≠ '/')
  refine ⟨(p.data.reverse.dropWhile f).reverse, ?_, ?_, ?_⟩
  · show p.data = _ ++ (p.data.reverse.takeWhile f).reverse
    rw [← List.reverse_append, List.takeWhile_append_dropWhile, List.reverse_reverse]
  · show '/' ∉ (p.data.reverse.takeWhile f).reverse
    intro h
    have h2 := List.mem_takeWhile_imp (List.mem_reverse.mp h)
    simp [f] at h2
  · cases hd : p.data.reverse.dropWhile f with
    | nil => left; rfl
    | cons x xs =>
      right
      have h := List.head?_dropWhile_not f p.data.reverse
      rw [hd] at h
      simp only [List.head?_cons, f] at h
      rw [List.getLast?_reverse, List.head?_cons]
      have hx : x = '/' := by
        by_contra hne
        simp [hne] at h
      rw [hx]

theorem main_eq (env : Env) (args : List String) :
    (resolveConfig args = Except.error ResolveError.usage ∧
      main env args = { status := ExitStatus.returned 1, rootEffects := [], effects := [] }) ∨
    (resolveConfig args = Except.error ResolveError.stoiThrow ∧
      main env args = { status := ExitStatus.terminated, rootEffects := [], effects := [] }) ∨
    (∃ c, resolveConfig args = Except.ok c ∧
      main env args =
        { status := ExitStatus.returned 0
          rootEffects := (layout env c.projectArg).rootEffects
          effects := emit (layout env c.projectArg).projectPath
            (layout env c.projectArg).projectName c }) := by
  unfold main
  cases h : resolveConfig args with
  | error e =>
    cases e with
    | usage => exact Or.inl ⟨rfl, rfl⟩
    | stoiThrow => exact Or.inr (Or.inl ⟨rfl, rfl⟩)
  | ok c => exact Or.inr (Or.inr ⟨c, rfl, rfl⟩)

theorem resolveConfig_usage_iff (args : List String) :
    resolveConfig args = Except.error ResolveError.usage ↔
      (args = [] ∨ (flaggedMode args = true ∧
        ∃ c, flagLoop defaults args = some c ∧ c.projectArg = "")) := by
  cases args with
  | nil => simp [resolveConfig]
  | cons a rest =>
    by_cases hf : flaggedMode (a :: rest) = true
    · rw [resolveConfig_flagged _ hf]
      cases hl : flagLoop defaults (a :: rest) with
      | none => simp
      | some c =>
        by_cases he : c.projectArg = ""
        · simp [hf, he]
        · simp [hf, he]
    · have hf2 : flaggedMode (a :: rest) = false := by simpa using hf
      unfold resolveConfig
      simp only [List.length_cons, hf2, Bool.false_eq_true, if_false]
      cases positional (a :: rest) with
      | none => simp
      | some c => simp

/-! ## Lemmas on the resolved fields -/

theorem stoi_range (s : String) (n : Int) (h : stoi s = some n) :
    INT_MIN ≤ n ∧ n ≤ INT_MAX := by
  have key : ∀ (ds : List Char) (v : Int),
      (if ds = [] then none else if v < INT_MIN ∨ INT_MAX < v then none else some v) = some n →
      INT_MIN ≤ n ∧ n ≤ INT_MAX := by
    intro ds v hv
    by_cases hd : ds = []
    · rw [if_pos hd] at hv
      exact Option.noConfusion hv
    · rw [if_neg hd] at hv
      by_cases hr : v < INT_MIN ∨ INT_MAX < v
      · rw [if_pos hr] at hv
        exact Option.noConfusion hv
      · rw [if_neg hr] at hv
        cases hv
        simp only [not_or, not_lt] at hr
        exact hr
  exact key _ _ h

theorem ne_of_startsWith_key (t k lit : String) (h : startsWith t k = true)
    (hl : startsWith lit k = false) : t ≠ lit := by
  rintro rfl
  rw [h] at hl
  exact Bool.noConfusion hl

theorem flagStep_git (c : Config) : flagStep c "--git" = some { c with init_git_repo := true } := by
  have e1 : startsWith "--git" "--name=" = false := by decide
  have e2 : startsWith "--git" "--link=" = false := by decide
  have e3 : startsWith "--git" "--lang=" = false := by decide
  have e4 : startsWith "--git" "--compiler=" = false := by decide
  have e5 : startsWith "--git" "--strict=" = false := by decide
  have e6 : startsWith "--git" "--build=" = false := by decide
  simp [flagStep, e1, e2, e3, e4, e5, e6]

theorem flagStep_docs (c : Config) :
    flagStep c "--docs" = some { c with documentation := true } := by
  have e1 : startsWith "--docs" "--name=" = false := by decide
  have e2 : startsWith "--docs" "--link=" = false := by decide
  have e3 : startsWith "--docs" "--lang=" = false := by decide
  have e4 : startsWith "--docs" "--compiler=" = false := by decide
  have e5 : startsWith "--docs" "--strict=" = false := by decide
  have e6 : startsWith "--docs" "--build=" = false := by decide
  have e7 : ("--docs" : String) ≠ "--git" := by decide
  simp [flagStep, e1, e2, e3, e4, e5, e6, e7]

theorem flagStep_test (c : Config) : flagStep c "--test" = some { c with test_flag := true } := by
  have e1 : startsWith "--test" "--name=" = false := by decide
  have e2 : startsWith "--test" "--link=" = false := by decide
  have e3 : startsWith "--test" "--lang=" = false := by decide
  have e4 : startsWith "--test" "--compiler=" = false := by decide
  have e5 : startsWith "--test" "--strict=" = false := by decide
  have e6 : startsWith "--test" "--build=" = false := by decide
  have e7 : ("--test" : String) ≠ "--git" := by decide
  have e8 : ("--test" : String) ≠ "--docs" := by decide
  simp [flagStep, e1, e2, e3, e4, e5, e6, e7, e8]

theorem flagStep_fields (c c1 : Config) (t : String) (h : flagStep c t = some c1) :
    c1.init_git_repo = (c.init_git_repo || decide (t = "--git")) ∧
    c1.documentation = (c.documentation || decide (t = "--docs")) ∧
    c1.test_flag = (c.test_flag || decide (t = "--test")) ∧
    (c1.strict_compiler = c.strict_compiler ∨
      (startsWith t "--strict=" = true ∧ stoi (substr t 9) = some c1.strict_compiler)) := by
  by_cases hg : t = "--git"
  · subst hg
    rw [flagStep_git] at h
    cases h
    exact ⟨by simp, by simp, by simp, Or.inl rfl⟩
  by_cases hd : t = "--docs"
  · subst hd
    rw [flagStep_docs] at h
    cases h
    exact ⟨by simp, by simp, by simp, Or.inl rfl⟩
  by_cases ht : t = "--test"
  · subst ht
    rw [flagStep_test] at h
    cases h
    exact ⟨by simp, by simp, by simp, Or.inl rfl⟩
  simp only [hg, hd, ht, decide_False, Bool.or_false]
  unfold flagStep at h
  simp only [hg, hd, ht, if_false] at h
  split at h
  · cases h; exact ⟨rfl, rfl, rfl, Or.inl rfl⟩
  · split at h
    · cases h; exact ⟨rfl, rfl, rfl, Or.inl rfl⟩
    · split at h
      · cases h; exact ⟨rfl, rfl, rfl, Or.inl rfl⟩
      · split at h
        · cases h; exact ⟨rfl, rfl, rfl, Or.inl rfl⟩
        · split at h
          · rename_i h5
            split at h
            · exact Option.noConfusion h
            · rename_i n hn
              cases h
              exact ⟨rfl, rfl, rfl, Or.inr ⟨h5, hn⟩⟩
          · split at h
            · cases h; exact ⟨rfl, rfl, rfl, Or.inl rfl⟩
            · split at h
              · cases h; exact ⟨rfl, rfl, rfl, Or.inl rfl⟩
              · cases h; exact ⟨rfl, rfl, rfl, Or.inl rfl⟩

theorem flagLoop_fields (ts : List String) :
    ∀ c c1 : Config, flagLoop c ts = some c1 →
      (c.init_git_repo = true → c1.init_git_repo = true) ∧
      (c.documentation = true → c1.documentation = true) ∧
      (c1.test_flag = true ↔ (c.test_flag = true ∨ "--test" ∈ ts)) ∧
      (c1.strict_compiler = c.strict_compiler ∨
        ∃ t ∈ ts, startsWith t "--strict=" = true ∧
          stoi (substr t 9) = some c1.strict_compiler) := by
  induction ts with
  | nil =>
    intro c c1 h
    cases h
    exact ⟨id, id, by simp, Or.inl rfl⟩
  | cons t ts ih =>
    intro c c1 h
    simp only [flagLoop] at h
    cases hs : flagStep c t with
    | none => rw [hs] at h; exact Option.noConfusion h
    | some c2 =>
      rw [hs] at h
      obtain ⟨f1, f2, f3, f4⟩ := flagStep_fields c c2 t hs
      obtain ⟨g1, g2, g3, g4⟩ := ih c2 c1 h
      refine ⟨?_, ?_, ?_, ?_⟩
      · intro hc; exact g1 (by rw [f1, hc]; rfl)
      · intro hc; exact g2 (by rw [f2, hc]; rfl)
      · rw [g3, f3]
        simp only [Bool.or_eq_true, decide_eq_true_eq, List.mem_cons]
        constructor
        · rintro ((h1 | h1) | h1)
          · exact Or.inl h1
          · exact Or.inr (Or.inl h1.symm)
          · exact Or.inr (Or.inr h1)
        · rintro (h1 | h1 | h1)
          · exact Or.inl (Or.inl h1)
          · exact Or.inl (Or.inr h1.symm)
          · exact Or.inr h1
      · rcases g4 with g4 | ⟨u, hu, hu2⟩
        · rcases f4 with f4 | f4
          · exact Or.inl (by rw [g4, f4])
          · exact Or.inr ⟨t, List.mem_cons_self _ _, f4.1, by rw [g4]; exact f4.2⟩
        · exact Or.inr ⟨u, List.mem_cons_of_mem _ hu, hu2⟩

theorem resolveConfig_flagged_projectArg (args : List String) (c : Config)
    (hflag : flaggedMode args = true) (h : resolveConfig args = Except.ok c) :
    flagLoop defaults args = some c ∧ c.projectArg ≠ "" := by
  rw [resolveConfig_flagged args hflag] at h
  cases hl : flagLoop defaults args with
  | none => rw [hl] at h; exact Except.noConfusion h
  | some c1 =>
    rw [hl] at h
    by_cases he : c1.projectArg = ""
    · simp only [he, if_true] at h
      exact Except.noConfusion h
    · simp only [he, if_false] at h
      cases h
      exact ⟨rfl, he⟩

theorem resolveConfig_positional_strict (args : List String) (c : Config)
    (hflag : flaggedMode args = false) (h : resolveConfig args = Except.ok c) :
    match args[4]? with
    | some a5 => stoi a5 = some c.strict_compiler
    | none => c.strict_compiler = 1 := by
  rcases args with _ | ⟨a1, rest⟩
  · simp [resolveConfig] at h
  · cases h4 : (a1 :: rest)[4]? with
    | none =>
      have hr := resolveConfig_positional a1 rest hflag 1 (by rw [h4])
      rw [hr] at h
      cases h
      rfl
    | some a5 =>
      cases h5 : stoi a5 with
      | none =>
        exfalso
        rcases rest with _ | ⟨a2, _ | ⟨a3, _ | ⟨a4, _ | ⟨b5, rest⟩⟩⟩⟩
        · simp at h4
        · simp at h4
        · simp at h4
        · simp at h4
        · simp at h4
          subst h4
          simp [resolveConfig, hflag, positional, argvAt, h5] at h
          split_ifs at h
      | some n =>
        have hr := resolveConfig_positional a1 rest hflag n (by rw [h4]; exact h5)
        rw [hr] at h
        cases h
        exact h5

theorem startsWith_incompatible (t p q : String) (hp : startsWith t p = true)
    (hpq : startsWith p q = false) (hqp : startsWith q p = false) :
    startsWith t q = false := by
  cases hq : startsWith t q
  · rfl
  · exfalso
    rw [startsWith_iff] at hp hq
    rcases List.prefix_or_prefix_of_prefix hp hq with h | h
    · rw [← startsWith_iff, hqp] at h
      exact Bool.noConfusion h
    · rw [← startsWith_iff, hpq] at h
      exact Bool.noConfusion h

theorem flagStep_strict_token (c : Config) (t : String)
    (h : startsWith t "--strict=" = true) :
    flagStep c t =
      match stoi (substr t 9) with
      | none => none
      | some n => some { c with strict_compiler := n } := by
  have h1 := startsWith_incompatible t "--strict=" "--name=" h (by decide) (by decide)
  have h2 := startsWith_incompatible t "--strict=" "--link=" h (by decide) (by decide)
  have h3 := startsWith_incompatible t "--strict=" "--lang=" h (by decide) (by decide)
  have h4 := startsWith_incompatible t "--strict=" "--compiler=" h (by decide) (by decide)
  simp [flagStep, h1, h2, h3, h4, h]

theorem flagLoop_strict_kept (ts : List String) :
    ∀ c c1 : Config, (∀ t ∈ ts, startsWith t "--strict=" = false) →
      flagLoop c ts = some c1 → c1.strict_compiler = c.strict_compiler := by
  induction ts with
  | nil =>
    intro c c1 _ h
    cases h
    rfl
  | cons t ts ih =>
    intro c c1 hts h
    simp only [flagLoop] at h
    cases hs : flagStep c t with
    | none => rw [hs] at h; exact Option.noConfusion h
    | some c2 =>
      rw [hs] at h
      have ht := hts t (List.mem_cons_self _ _)
      have h2 : c2.strict_compiler = c.strict_compiler := by
        rcases (flagStep_fields c c2 t hs).2.2.2 with e | ⟨e, _⟩
        · exact e
        · rw [ht] at e; exact Bool.noConfusion e
      rw [← h2]
      exact ih c2 c1 (fun u hu => hts u (List.mem_cons_of_mem _ hu)) h

theorem flagLoop_strict_last (pre post : List String) (t : String) (c c1 : Config)
    (ht : startsWith t "--strict=" = true)
    (hpost : ∀ u ∈ post, startsWith u "--strict=" = false)
    (h : flagLoop c (pre ++ t :: post) = some c1) :
    stoi (substr t 9) = some c1.strict_compiler := by
  rw [flagLoop_append] at h
  cases hp : flagLoop c pre with
  | none => rw [hp] at h; exact Option.noConfusion h
  | some c2 =>
    rw [hp] at h
    simp only [Option.bind, flagLoop, flagStep_strict_token c2 t ht] at h
    cases hs : stoi (substr t 9) with
    | none => rw [hs] at h; exact Option.noConfusion h
    | some n =>
      rw [hs] at h
      simp only at h
      have hk := flagLoop_strict_kept post _ c1 hpost h
      rw [hk]

/-! ## Lemmas on the build manifest -/

theorem cmakeLines_flag_lines (projectName : String) (c : Config) :
    (cmakeLines projectName c).filter isFlagsLine = mirroredFlagLines c := by
  have hlit : ∀ (lit rest : String), isFlagsLine lit = false → lit.length ≤ 18 →
      startsWith "set(CMAKE_C_FLAGS " lit = false →
      startsWith "set(CMAKE_CXX_FLAGS " lit = false → isFlagsLine (lit ++ rest) = false := by
    intro lit rest _ hlen h1 h2
    unfold isFlagsLine
    rw [startsWith_append_long _ _ _ (by rw [show ("set(CMAKE_C_FLAGS " : String).length = 18 from by decide]; exact hlen) h1,
      startsWith_append_long _ _ _ (by rw [show ("set(CMAKE_CXX_FLAGS " : String).length = 20 from by decide]; omega) h2]
    rfl
  have hp : isFlagsLine ("project(" ++ projectName ++ ")\n") = false := by
    rw [String.append_assoc]
    exact hlit _ _ (by decide) (by decide) (by decide) (by decide)
  have ha : ∀ src : String, isFlagsLine ("add_executable(" ++ projectName ++ " " ++ src ++ ")\n") = false := by
    intro src
    rw [String.append_assoc, String.append_assoc, String.append_assoc]
    exact hlit _ _ (by decide) (by decide) (by decide) (by decide)
  have hlong : ∀ (lit rest : String), 20 ≤ lit.length → isFlagsLine lit = false →
      isFlagsLine (lit ++ rest) = false := by
    intro lit rest hlen hf
    unfold isFlagsLine at hf ⊢
    rw [startsWith_append_short _ _ _ (by rw [show ("set(CMAKE_C_FLAGS " : String).length = 18 from by decide]; omega),
      startsWith_append_short _ _ _ (by rw [show ("set(CMAKE_CXX_FLAGS " : String).length = 20 from by decide]; exact hlen)]
    exact hf
  have ht : isFlagsLine ("target_include_directories(" ++ projectName ++ " PRIVATE inc)\n") = false := by
    rw [String.append_assoc]
    exact hlong _ _ (by decide) (by decide)
  have hs : isFlagsLine
      ("set_target_properties(" ++ projectName ++ " PROPERTIES LINK_FLAGS \"-shared\")\n") =
        false := by
    rw [String.append_assoc]
    exact hlong _ _ (by decide) (by decide)
  have l1 : isFlagsLine "cmake_minimum_required(VERSION 3.10)\n" = false := by decide
  have l2 : isFlagsLine "enable_language(C)\n" = false := by decide
  have l3 : isFlagsLine "enable_language(CXX)\n" = false := by decide
  have l4 : isFlagsLine "set(CMAKE_BUILD_TYPE Debug)\n" = false := by decide
  have l5 : isFlagsLine "set(CMAKE_EXPORT_COMPILE_COMMANDS ON)\n" = false := by decide
  have l6 : isFlagsLine "set(CMAKE_C_STANDARD 11)\n" = false := by decide
  have l7 : isFlagsLine "set(CMAKE_C_STANDARD_REQUIRED ON)\n" = false := by decide
  have l8 : isFlagsLine "set(CMAKE_CXX_STANDARD 23)\n" = false := by decide
  have l9 : isFlagsLine "set(CMAKE_CXX_STANDARD_REQUIRED ON)\n" = false := by decide
  have l10 : isFlagsLine "enable_testing()\n" = false := by decide
  have l11 : isFlagsLine "add_subdirectory(test)\n" = false := by decide
  have f1 : isFlagsLine "set(CMAKE_C_FLAGS \"$\x7bCMAKE_C_FLAGS\x7d -Wall\")\n" = true := by decide
  have f2 : isFlagsLine
      "set(CMAKE_C_FLAGS \"$\x7bCMAKE_C_FLAGS\x7d -Wall -Wextra -pedantic -fsanitize=address\")\n" =
        true := by decide
  have f3 : isFlagsLine "set(CMAKE_CXX_FLAGS \"$\x7bCMAKE_CXX_FLAGS\x7d -Wall\")\n" = true := by decide
  have f4 : isFlagsLine
      "set(CMAKE_CXX_FLAGS \"$\x7bCMAKE_CXX_FLAGS\x7d -Wall -Wextra -pedantic -fsanitize=address\")\n" =
        true := by decide
  unfold cmakeLines mirroredFlagLines flags
  by_cases hl : c.language = "c" <;> by_cases h1 : c.strict_compiler = 1 <;>
    by_cases h2 : c.strict_compiler = 2 <;>
    simp only [hl, h1, h2, if_true, if_false, List.filter_append, List.filter_cons,
      List.filter_nil, hp, ha, ht, hs, l1, l2, l3, l4, l5, l6, l7, l8, l9, l10, l11, f1, f2, f3,
      f4, List.append_nil, List.nil_append, Bool.false_eq_true] <;>
    split_ifs <;>
    simp only [List.filter_cons, List.filter_nil, hs, l10, l11, List.append_nil, if_false,
      Bool.false_eq_true, List.nil_append, List.cons_append, reduceCtorEq] <;>
    first | rfl | decide | simp_all


theorem cmakeLines_mem_fixed (projectName : String) (c : Config) (t : String)
    (hp : startsWith t "p" = false) (ha : startsWith t "a" = false)
    (ht : startsWith t "t" = false) (hs : startsWith t "set_" = false) :
    (c.language = "c" →
      (t ∈ cmakeLines projectName c ↔
        t ∈ ["cmake_minimum_required(VERSION 3.10)\n", "enable_language(C)\n",
          "set(CMAKE_BUILD_TYPE Debug)\n", "set(CMAKE_EXPORT_COMPILE_COMMANDS ON)\n"] ++
          mirroredFlagLines c ++
          ["set(CMAKE_C_STANDARD 11)\n", "set(CMAKE_C_STANDARD_REQUIRED ON)\n"])) ∧
    (c.language ≠ "c" →
      (t ∈ cmakeLines projectName c ↔
        t ∈ ["cmake_minimum_required(VERSION 3.10)\n", "enable_language(CXX)\n",
          "set(CMAKE_BUILD_TYPE Debug)\n", "set(CMAKE_EXPORT_COMPILE_COMMANDS ON)\n"] ++
          mirroredFlagLines c ++
          ["set(CMAKE_CXX_STANDARD 23)\n", "set(CMAKE_CXX_STANDARD_REQUIRED ON)\n"] ++
          (if c.test_flag = true then ["enable_testing()\n", "add_subdirectory(test)\n"]
           else []))) := by
  have p1 : t ≠ "project(" ++ projectName ++ ")\n" := by
    rw [String.append_assoc]
    exact (lit_append_ne _ _ _ "p" (by decide) (by decide) hp).symm
  have a1 : ∀ src : String, t ≠ "add_executable(" ++ projectName ++ " " ++ src ++ ")\n" := by
    intro src
    rw [String.append_assoc, String.append_assoc, String.append_assoc]
    exact (lit_append_ne _ _ _ "a" (by decide) (by decide) ha).symm
  have a1c := a1 "src/main.c"
  have a1x := a1 "src/main.cpp"
  have t1 : t ≠ "target_include_directories(" ++ projectName ++ " PRIVATE inc)\n" := by
    rw [String.append_assoc]
    exact (lit_append_ne _ _ _ "t" (by decide) (by decide) ht).symm
  have s1 : t ≠
      "set_target_properties(" ++ projectName ++ " PROPERTIES LINK_FLAGS \"-shared\")\n" := by
    rw [String.append_assoc]
    exact (lit_append_ne _ _ _ "set_" (by decide) (by decide) hs).symm
  have e1 : ("set(CMAKE_C_FLAGS \"$\x7bCMAKE_C_FLAGS\x7d" ++ " -Wall" ++ "\")\n" : String) =
      "set(CMAKE_C_FLAGS \"$\x7bCMAKE_C_FLAGS\x7d -Wall\")\n" := by decide
  have e2 : ("set(CMAKE_C_FLAGS \"$\x7bCMAKE_C_FLAGS\x7d" ++
      " -Wall -Wextra -pedantic -fsanitize=address" ++ "\")\n" : String) =
      "set(CMAKE_C_FLAGS \"$\x7bCMAKE_C_FLAGS\x7d -Wall -Wextra -pedantic -fsanitize=address\")\n" := by
    decide
  have e3 : ("set(CMAKE_CXX_FLAGS \"$\x7bCMAKE_CXX_FLAGS\x7d" ++ " -Wall" ++ "\")\n" : String) =
      "set(CMAKE_CXX_FLAGS \"$\x7bCMAKE_CXX_FLAGS\x7d -Wall\")\n" := by decide
  have e4 : ("set(CMAKE_CXX_FLAGS \"$\x7bCMAKE_CXX_FLAGS\x7d" ++
      " -Wall -Wextra -pedantic -fsanitize=address" ++ "\")\n" : String) =
      "set(CMAKE_CXX_FLAGS \"$\x7bCMAKE_CXX_FLAGS\x7d -Wall -Wextra -pedantic -fsanitize=address\")\n" := by
    decide
  have n1 : (" -Wall" : String) ≠ "" := by decide
  have h21 : ¬ ((2 : Int) = 1) := by decide
  have n2 : (" -Wall -Wextra -pedantic -fsanitize=address" : String) ≠ "" := by decide
  constructor
  · intro hl
    unfold cmakeLines mirroredFlagLines flags
    simp only [hl, if_true, ne_eq, not_true_eq_false, false_and, if_false]
    by_cases h1 : c.strict_compiler = 1
    · simp only [h1, if_true, n1, if_false, e1]
      split_ifs <;>
        simp only [List.mem_append, List.mem_cons, List.mem_singleton, List.not_mem_nil, p1,
          a1c, t1, s1, or_false, false_or, List.append_nil, or_assoc]
    · by_cases h2 : c.strict_compiler = 2
      · simp only [h1, if_false, h2, h21, if_true, n2, e2]
        split_ifs <;>
          simp only [List.mem_append, List.mem_cons, List.mem_singleton, List.not_mem_nil, p1,
            a1c, t1, s1, or_false, false_or, List.append_nil, or_assoc]
      · simp only [h1, h2, if_true, if_false]
        split_ifs <;>
          simp only [List.mem_append, List.mem_cons, List.mem_singleton, List.not_mem_nil, p1,
            a1c, t1, s1, or_false, false_or, List.append_nil, or_assoc]
  · intro hl
    unfold cmakeLines mirroredFlagLines flags
    simp only [hl, if_true, ne_eq, not_false_eq_true, true_and, if_false]
    by_cases h1 : c.strict_compiler = 1
    · simp only [h1, if_true, n1, if_false, e3]
      split_ifs <;>
        simp only [List.mem_append, List.mem_cons, List.mem_singleton, List.not_mem_nil, p1,
          a1x, t1, s1, or_false, false_or, List.append_nil, or_assoc]
    · by_cases h2 : c.strict_compiler = 2
      · simp only [h1, if_false, h2, h21, if_true, n2, e4]
        split_ifs <;>
          simp only [List.mem_append, List.mem_cons, List.mem_singleton, List.not_mem_nil, p1,
            a1x, t1, s1, or_false, false_or, List.append_nil, or_assoc]
      · simp only [h1, h2, if_true, if_false]
        split_ifs <;>
          simp only [List.mem_append, List.mem_cons, List.mem_singleton, List.not_mem_nil, p1,
            a1x, t1, s1, or_false, false_or, List.append_nil, or_assoc]

theorem starterWrites_emit (projectPath projectName : String) (c : Config) :
    starterWrites (emit projectPath projectName c) =
      [Effect.write ["src", srcFile c] (if c.language = "c" then mainCText else mainCppText)] := by
  unfold emit mainFileEffects buildFileEffects testEffects gitEffects doxyEffects srcFile
  split_ifs <;> simp [starterWrites, isStarterWrite, List.filter_cons, List.filter_append]

theorem compileCommand_form (projectName : String) (c : Config) :
    compileCommand projectName c =
      c.compiler ++ flags c ++ linkingFlag c ++
        (if c.language = "c" then " -g -std=c11 -o build/" else " -g -std=c++23 -o build/") ++
        projectName ++ " src/" ++ srcFile c := by
  unfold compileCommand
  split_ifs <;> rfl

theorem not_mem_mirroredFlagLines (projectName : String) (c : Config) (t : String)
    (h : isFlagsLine t = false) : t ∉ mirroredFlagLines c := by
  intro hm
  rw [← cmakeLines_flag_lines projectName c] at hm
  have h2 := (List.mem_filter.mp hm).2
  rw [h] at h2
  exact Bool.noConfusion h2

/-! ## Positional mode -/

/-- C1: in positional mode (no argument begins with `--`), for arguments `a1 .. ak` with
`1 ≤ k ≤ 9` whose fifth argument, when present, is read by `std::stoi` as an integer, the
resolver returns the configuration with `projectArg = a1` and every further slot equal to the
supplied value when the argument is present and to the default (static, c++, clang++, 1, cmake,
true, true, false) when it is absent; the strictness is the integer value of `a5` and the three
boolean slots hold whether the argument is the literal `yes`.  In particular `[name]` gives
exactly the defaults. -/
theorem C1_positional_slots_and_defaults :
    (∀ (args : List String), 1 ≤ args.length → args.length ≤ 9 → flaggedMode args = false →
      (∀ a5, args[4]? = some a5 → stoi a5 ≠ none) →
      ∃ n : Int,
        (match args[4]? with
          | some a5 => stoi a5 = some n
          | none => n = 1) ∧
        resolveConfig args = Except.ok
          { projectArg := args.getD 0 ""
            linking := args.getD 1 "static"
            language := args.getD 2 "c++"
            compiler := args.getD 3 "clang++"
            strict_compiler := n
            build_system := args.getD 5 "cmake"
            init_git_repo := (match args[6]? with
              | some a7 => decide (a7 = "yes")
              | none => true)
            documentation := (match args[7]? with
              | some a8 => decide (a8 = "yes")
              | none => true)
            test_flag := (match args[8]? with
              | some a9 => decide (a9 = "yes")
              | none => false) }) ∧
    (∀ name : String, startsWith name "--" = false →
      resolveConfig [name] = Except.ok
        { projectArg := name, linking := "static", language := "c++", compiler := "clang++",
          strict_compiler := 1, build_system := "cmake", init_git_repo := true,
          documentation := true, test_flag := false }) := by
  constructor
  · intro args h1 h9 hflag hint
    rcases args with _ | ⟨a1, _ | ⟨a2, _ | ⟨a3, _ | ⟨a4, rest⟩⟩⟩⟩
    · simp at h1
    · exact ⟨1, by simp, by simp [resolveConfig, hflag, positional, argvAt, defaults]⟩
    · exact ⟨1, by simp, by simp [resolveConfig, hflag, positional, argvAt, defaults]⟩
    · exact ⟨1, by simp, by simp [resolveConfig, hflag, positional, argvAt, defaults]⟩
    · rcases rest with _ | ⟨a5, rest⟩
      · exact ⟨1, by simp, by simp [resolveConfig, hflag, positional, argvAt, defaults]⟩
      · have h5 := hint a5 (by simp)
        obtain ⟨n, hn⟩ := Option.ne_none_iff_exists'.mp h5
        refine ⟨n, by simpa using hn, ?_⟩
        rcases rest with _ | ⟨a6, _ | ⟨a7, _ | ⟨a8, _ | ⟨a9, rest⟩⟩⟩⟩
        · simp [resolveConfig, hflag, positional, argvAt, defaults, hn]
        · simp [resolveConfig, hflag, positional, argvAt, defaults, hn]
        · simp [resolveConfig, hflag, positional, argvAt, defaults, hn]
        · simp [resolveConfig, hflag, positional, argvAt, defaults, hn]
        · have hr : rest = [] := by
            simp only [List.length_cons] at h9
            exact List.length_eq_zero.mp (by omega)
          subst hr
          simp [resolveConfig, hflag, positional, argvAt, defaults, hn]
  · intro name hname
    have hflag : flaggedMode [name] = false := by simp [flaggedMode, hname]
    simp [resolveConfig, hflag, positional, argvAt, defaults]

/-- Witness for C1: eight positional arguments, the ninth slot absent. -/
theorem C1_positional_slots_and_defaults_witness :
    resolveConfig ["myapp", "dynamic", "c", "gcc", "2", "make", "no", "yes"] = Except.ok
      { projectArg := "myapp", linking := "dynamic", language := "c", compiler := "gcc",
        strict_compiler := 2, build_system := "make", init_git_repo := false,
        documentation := true, test_flag := false } := by
  obtain ⟨n, hn, hr⟩ := C1_positional_slots_and_defaults.1
    ["myapp", "dynamic", "c", "gcc", "2", "make", "no", "yes"]
    (by decide) (by decide) (by decide) (by intro a5 h; cases h; decide)
  have h2 : stoi "2" = some 2 := by decide
  have hn2 : n = 2 := by
    have h3 : stoi "2" = some n := hn
    rw [h2] at h3
    exact (Option.some.inj h3).symm
  subst hn2
  rw [hr]
  simp

/-- C6: for every positional argument list (at least one argument, none beginning with `--`),
whenever the resolver returns a configuration, `init_git_repo` is true exactly when the 7th
argument is the literal `yes` if that argument is present and is true if it is absent; likewise
`documentation` for the 8th argument (true when absent) and `test_flag` for the 9th (false when
absent).  The resolver does return a configuration as soon as the 5th argument, when present,
is read by `std::stoi`. -/
theorem C6_positional_boolean_slots (args : List String) (h1 : 1 ≤ args.length)
    (hflag : flaggedMode args = false) :
    (∀ c : Config, resolveConfig args = Except.ok c →
      c.init_git_repo = (match args[6]? with
        | some a7 => decide (a7 = "yes")
        | none => true) ∧
      c.documentation = (match args[7]? with
        | some a8 => decide (a8 = "yes")
        | none => true) ∧
      c.test_flag = (match args[8]? with
        | some a9 => decide (a9 = "yes")
        | none => false)) ∧
    ((∀ a5, args[4]? = some a5 → stoi a5 ≠ none) →
      ∃ c : Config, resolveConfig args = Except.ok c) := by
  rcases args with _ | ⟨a1, rest⟩
  · simp at h1
  · have hcase : (∃ n : Int, match (a1 :: rest)[4]? with
        | some a5 => stoi a5 = some n
        | none => n = 1) ∨ (∃ a5, (a1 :: rest)[4]? = some a5 ∧ stoi a5 = none) := by
      cases h4 : (a1 :: rest)[4]? with
      | none => exact Or.inl ⟨1, rfl⟩
      | some a5 =>
        cases h5 : stoi a5 with
        | none => exact Or.inr ⟨a5, rfl, h5⟩
        | some n => exact Or.inl ⟨n, h5⟩
    rcases hcase with ⟨n, hn⟩ | ⟨a5, h4, h5⟩
    · have hr := resolveConfig_positional a1 rest hflag n hn
      constructor
      · intro c hc
        rw [hr] at hc
        cases hc
        exact ⟨rfl, rfl, rfl⟩
      · intro _
        exact ⟨_, hr⟩
    · constructor
      · intro c hc
        exfalso
        rcases rest with _ | ⟨a2, _ | ⟨a3, _ | ⟨a4, _ | ⟨a5', rest⟩⟩⟩⟩
        · simp at h4
        · simp at h4
        · simp at h4
        · simp at h4
        · simp at h4
          subst h4
          simp [resolveConfig, hflag, positional, argvAt, h5] at hc
          split_ifs at hc
      · intro hint
        exact absurd h5 (hint a5 h4)

/-- Witness for C6: nine positional arguments, the 7th `yes`, the 8th `no`, the 9th `Yes`. -/
theorem C6_positional_boolean_slots_witness :
    (∀ c : Config,
      resolveConfig ["app", "static", "c++", "g++", "0", "cmake", "yes", "no", "Yes"] =
        Except.ok c →
      c.init_git_repo = true ∧ c.documentation = false ∧ c.test_flag = false) ∧
    ((∀ a5, ["app", "static", "c++", "g++", "0", "cmake", "yes", "no", "Yes"][4]? = some a5 →
        stoi a5 ≠ none) →
      ∃ c : Config,
        resolveConfig ["app", "static", "c++", "g++", "0", "cmake", "yes", "no", "Yes"] =
          Except.ok c) :=
  C6_positional_boolean_slots ["app", "static", "c++", "g++", "0", "cmake", "yes", "no", "Yes"]
    (by decide) (by decide)

/-! ## Flagged mode -/

/-- C2: for every non-empty name `n` not beginning with `--` and every build value `b`, the
arguments `["--name=" ++ n, "--build=" ++ b]` resolve to the configuration that the positional
list `[n]` resolves to, except that the build system is `b`; linking, language, compiler,
strictness, git, docs and test are the positional defaults. -/
theorem C2_flag_mode_defaults_agree (n b : String) (hn : n ≠ "")
    (hbare : startsWith n "--" = false) :
    ∃ c : Config, resolveConfig [n] = Except.ok c ∧
      resolveConfig ["--name=" ++ n, "--build=" ++ b] =
        Except.ok { c with build_system := b } ∧
      c.projectArg = n ∧ c.linking = "static" ∧ c.language = "c++" ∧ c.compiler = "clang++" ∧
      c.strict_compiler = 1 ∧ c.init_git_repo = true ∧ c.documentation = true ∧
      c.test_flag = false := by
  refine ⟨{ defaults with projectArg := n }, resolveConfig_single n hbare, ?_,
    rfl, rfl, rfl, rfl, rfl, rfl, rfl, rfl⟩
  have hflag : flaggedMode ["--name=" ++ n, "--build=" ++ b] = true := by
    have h : startsWith ("--name=" ++ n) "--" = true := by
      rw [startsWith_append_short _ _ _ (by decide)]; decide
    simp [flaggedMode, h]
  simp [resolveConfig, hflag, flagLoop, flagStep_name_append, flagStep_build_append, hn]

/-- Witness for C2: the invocation `--name=foo --build=make`. -/
theorem C2_flag_mode_defaults_agree_witness :
    ∃ c : Config, resolveConfig ["foo"] = Except.ok c ∧
      resolveConfig ["--name=" ++ "foo", "--build=" ++ "make"] =
        Except.ok { c with build_system := "make" } ∧
      c.projectArg = "foo" ∧ c.linking = "static" ∧ c.language = "c++" ∧
      c.compiler = "clang++" ∧ c.strict_compiler = 1 ∧ c.init_git_repo = true ∧
      c.documentation = true ∧ c.test_flag = false :=
  C2_flag_mode_defaults_agree "foo" "make" (by decide) (by decide)

/-- C3 (as amended): in flagged mode, deleting a token that is not a recognised flag leaves
the result of the resolver (configuration, usage error or `std::stoi` failure) unchanged,
provided a token beginning with `--` remains and the deleted token either begins with `--`, or
is the empty string, or comes after tokens that already supply a non-empty project name.  Bare
tokens are never read as positional slots: `[name, "dynamic", "--test"]` keeps
`linking = static` for every bare `name`. -/
theorem C3_flag_mode_ignores_unread_tokens :
    (∀ (pre post : List String) (t : String),
      flaggedMode (pre ++ t :: post) = true → flaggedMode (pre ++ post) = true →
      recognisedFlag t = false →
      (startsWith t "--" = true ∨ t = "" ∨ NameSupplied pre) →
      resolveConfig (pre ++ t :: post) = resolveConfig (pre ++ post)) ∧
    (∀ name : String, startsWith name "--" = false →
      ∃ c : Config, resolveConfig [name, "dynamic", "--test"] = Except.ok c ∧
        c.linking = "static" ∧ c.test_flag = true ∧ (name ≠ "" → c.projectArg = name)) := by
  constructor
  · intro pre post t hflag hremain hunrec hign
    rw [resolveConfig_flagged _ hflag, resolveConfig_flagged _ hremain]
    have hloop : flagLoop defaults (pre ++ t :: post) = flagLoop defaults (pre ++ post) := by
      rw [flagLoop_append, flagLoop_append]
      cases hp : flagLoop defaults pre with
      | none => rfl
      | some c2 =>
        have hstep : flagStep c2 t = some c2 := by
          apply flagStep_ignored c2 t hunrec
          rcases hign with h | h | h
          · exact Or.inl h
          · exact Or.inr (Or.inl h)
          · exact Or.inr (Or.inr (flagLoop_nameSupplied pre defaults c2 h hp))
        simp only [Option.bind, flagLoop, hstep]
    rw [hloop]
  · intro name hname
    have hflag : flaggedMode [name, "dynamic", "--test"] = true := by
      simp only [flaggedMode, List.any_cons, List.any_nil, Bool.or_false, Bool.or_eq_true]
      exact Or.inr (Or.inr (by decide))
    have hdyn : startsWith "dynamic" "--" = false := by decide
    have htest : ∀ c : Config, flagStep c "--test" = some { c with test_flag := true } := by
      intro c
      have e1 : startsWith "--test" "--name=" = false := by decide
      have e2 : startsWith "--test" "--link=" = false := by decide
      have e3 : startsWith "--test" "--lang=" = false := by decide
      have e4 : startsWith "--test" "--compiler=" = false := by decide
      have e5 : startsWith "--test" "--strict=" = false := by decide
      have e6 : startsWith "--test" "--build=" = false := by decide
      have e7 : ("--test" : String) ≠ "--git" := by decide
      have e8 : ("--test" : String) ≠ "--docs" := by decide
      simp [flagStep, e1, e2, e3, e4, e5, e6, e7, e8]
    rw [resolveConfig_flagged _ hflag]
    by_cases he : name = ""
    · subst he
      refine ⟨{ defaults with projectArg := "dynamic", test_flag := true }, ?_, rfl, rfl, ?_⟩
      · simp only [flagLoop, flagStep_bare _ _ hname, flagStep_bare _ _ hdyn, htest]
        decide
      · intro h; exact absurd rfl h
    · refine ⟨{ defaults with projectArg := name, test_flag := true }, ?_, rfl, rfl, fun _ => rfl⟩
      have hd : defaults.projectArg = "" := rfl
      simp only [flagLoop, flagStep_bare _ _ hname, flagStep_bare _ _ hdyn, htest, hd, if_true,
        if_neg he]

/-- Witness for C3: the second bare token of `myapp dynamic --test` is deleted. -/
theorem C3_flag_mode_ignores_unread_tokens_witness :
    resolveConfig (["myapp"] ++ "dynamic" :: ["--test"]) = resolveConfig (["myapp"] ++ ["--test"]) :=
  C3_flag_mode_ignores_unread_tokens.1 ["myapp"] ["--test"] "dynamic" (by decide) (by decide)
    (by decide) (Or.inr (Or.inr ⟨[], "myapp", [], rfl, by decide, by decide⟩))

/-- Counterexample to C3 as stated: in `["", "foo", "--test"]` the token `foo` is neither a
recognised flag nor the first bare token (the empty string before it is), and a `--` token
remains, yet deleting it turns a configuration into a usage error. -/
theorem C3_counterexample :
    flaggedMode ["", "foo", "--test"] = true ∧ flaggedMode ["", "--test"] = true ∧
    recognisedFlag "foo" = false ∧ startsWith "" "--" = false ∧
    resolveConfig ["", "foo", "--test"] =
      Except.ok { defaults with projectArg := "foo", test_flag := true } ∧
    resolveConfig ["", "--test"] = Except.error ResolveError.usage := by
  decide

/-- C4 (as amended): for every argument list with a token beginning with `--` in which every
`--strict=` value is read by `std::stoi`, the resolver ends with the usage error (exit code 1)
if and only if no token supplies a non-empty project name that lasts to the end of the loop,
that is, there is no token that is `--name=v` with `v` non-empty or a non-empty bare token and
that has no `--name=` token after it; otherwise it returns a configuration.  In particular a
list with neither a `--name=` token nor a bare token ends with the usage error. -/
theorem C4_flag_mode_usage_error_iff (args : List String) (hflag : flaggedMode args = true)
    (hstrict : ∀ t ∈ args, startsWith t "--strict=" = true → stoi (substr t 9) ≠ none) :
    (resolveConfig args = Except.error ResolveError.usage ↔ ¬ NameSupplied args) ∧
    (NameSupplied args → ∃ c : Config, resolveConfig args = Except.ok c) ∧
    ((∀ t ∈ args, startsWith t "--name=" = false ∧ startsWith t "--" = true) →
      resolveConfig args = Except.error ResolveError.usage) := by
  obtain ⟨c1, h1⟩ := flagLoop_total args defaults hstrict
  have hiff := flagLoop_defaults_nonempty_iff args c1 h1
  have hres : resolveConfig args =
      if c1.projectArg = "" then Except.error ResolveError.usage else Except.ok c1 := by
    exact resolveConfig_flagged_some args c1 hflag h1
  have husage : resolveConfig args = Except.error ResolveError.usage ↔ ¬ NameSupplied args := by
    rw [← hiff, hres]
    by_cases he : c1.projectArg = ""
    · simp [he]
    · simp [he]
  refine ⟨husage, ?_, ?_⟩
  · intro hs
    refine ⟨c1, ?_⟩
    rw [hres, if_neg (hiff.mpr hs)]
  · intro hall
    rw [husage]
    rintro ⟨a, u, b, rfl, hu, _⟩
    obtain ⟨hn, hf⟩ := hall u (by simp)
    rcases hu with ⟨hu, _⟩ | ⟨hu, _⟩
    · rw [hn] at hu; exact Bool.noConfusion hu
    · rw [hf] at hu; exact Bool.noConfusion hu

/-- Witness for C4: `x --name=` has a bare token and a `--name=` token and still ends with the
usage error, no token supplying a name that lasts. -/
theorem C4_flag_mode_usage_error_iff_witness :
    (resolveConfig ["x", "--name=", "--strict=2"] = Except.error ResolveError.usage ↔
      ¬ NameSupplied ["x", "--name=", "--strict=2"]) ∧
    (NameSupplied ["x", "--name=", "--strict=2"] →
      ∃ c : Config, resolveConfig ["x", "--name=", "--strict=2"] = Except.ok c) ∧
    ((∀ t ∈ ["x", "--name=", "--strict=2"],
        startsWith t "--name=" = false ∧ startsWith t "--" = true) →
      resolveConfig ["x", "--name=", "--strict=2"] = Except.error ResolveError.usage) :=
  C4_flag_mode_usage_error_iff ["x", "--name=", "--strict=2"] (by decide) (by decide)

/-- Counterexample to C4 as stated: the list `["--name="]` contains a token beginning with
`--name=` (and no `--strict=` token), yet the resolver ends with the usage error. -/
theorem C4_counterexample :
    flaggedMode ["--name="] = true ∧ startsWith "--name=" "--name=" = true ∧
    resolveConfig ["--name="] = Except.error ResolveError.usage := by
  decide

/-- C5 (as amended): in flagged mode, with every `--strict=` value read by `std::stoi`:
if no token begins with `--name=`, the project name is the first non-empty token that does not
begin with `--`; if exactly one token begins with `--name=` and it is `--name=v` with `v`
non-empty, the project name is `v`, whatever bare tokens come before or after it.  In both
cases the resolver returns a configuration. -/
theorem C5_flag_mode_project_name :
    (∀ (pre post : List String) (n : String),
      flaggedMode (pre ++ n :: post) = true →
      (∀ t ∈ pre ++ n :: post, startsWith t "--strict=" = true → stoi (substr t 9) ≠ none) →
      (∀ t ∈ pre ++ n :: post, startsWith t "--name=" = false) →
      (∀ u ∈ pre, startsWith u "--" = true ∨ u = "") →
      startsWith n "--" = false → n ≠ "" →
      ∃ c : Config, resolveConfig (pre ++ n :: post) = Except.ok c ∧ c.projectArg = n) ∧
    (∀ (pre post : List String) (v : String),
      (∀ t ∈ pre ++ post, startsWith t "--strict=" = true → stoi (substr t 9) ≠ none) →
      (∀ t ∈ pre ++ post, startsWith t "--name=" = false) →
      v ≠ "" →
      ∃ c : Config, resolveConfig (pre ++ ("--name=" ++ v) :: post) = Except.ok c ∧
        c.projectArg = v) := by
  constructor
  · intro pre post n hflag hstrict hname hpre hbare hne
    obtain ⟨c1, h1⟩ := flagLoop_total _ defaults hstrict
    refine ⟨c1, ?_, ?_⟩
    · have hs : NameSupplied (pre ++ n :: post) :=
        ⟨pre, n, post, rfl, Or.inr ⟨hbare, hne⟩, fun v hv => hname v (by simp [hv])⟩
      rw [resolveConfig_flagged_some _ c1 hflag h1,
        if_neg ((flagLoop_defaults_nonempty_iff _ c1 h1).mpr hs)]
    · rw [flagLoop_append] at h1
      cases hp : flagLoop defaults pre with
      | none => rw [hp] at h1; exact Option.noConfusion h1
      | some c2 =>
        rw [hp] at h1
        have h2 : c2.projectArg = "" :=
          flagLoop_projectArg_empty pre defaults c2 rfl
            (fun u hu => ⟨hname u (by simp [hu]), hpre u hu⟩) hp
        simp only [Option.bind, flagLoop, flagStep_bare c2 n hbare, if_pos h2] at h1
        exact flagLoop_projectArg_kept post _ c1 hne (fun v hv => hname v (by simp [hv])) h1
  · intro pre post v hstrict hname hne
    have hkey : startsWith ("--name=" ++ v) "--name=" = true := startsWith_append_self _ _
    have hkey2 : startsWith ("--name=" ++ v) "--" = true :=
      startsWith_trans _ _ _ hkey (by decide)
    have hkey5 : startsWith ("--name=" ++ v) "--strict=" = false :=
      startsWith_append_long _ _ _ (by decide) (by decide)
    have hflag : flaggedMode (pre ++ ("--name=" ++ v) :: post) = true := by
      simp only [flaggedMode, List.any_append, List.any_cons, hkey2, Bool.true_or, Bool.or_true]
    have hstrict2 : ∀ t ∈ pre ++ ("--name=" ++ v) :: post,
        startsWith t "--strict=" = true → stoi (substr t 9) ≠ none := by
      intro t ht hs
      rcases List.mem_append.mp ht with h | h
      · exact hstrict t (by simp [h]) hs
      · rcases List.mem_cons.mp h with h | h
        · subst h; rw [hkey5] at hs; exact Bool.noConfusion hs
        · exact hstrict t (by simp [h]) hs
    obtain ⟨c1, h1⟩ := flagLoop_total _ defaults hstrict2
    have hv : c1.projectArg = v := by
      have h1c := h1
      rw [flagLoop_append] at h1c
      cases hp : flagLoop defaults pre with
      | none => rw [hp] at h1c; exact Option.noConfusion h1c
      | some c2 =>
        rw [hp] at h1c
        simp only [Option.bind, flagLoop, flagStep_name_append] at h1c
        exact flagLoop_projectArg_kept post _ c1 hne (fun u hu => hname u (by simp [hu])) h1c
    refine ⟨c1, ?_, hv⟩
    rw [resolveConfig_flagged_some _ c1 hflag h1, if_neg (by rw [hv]; exact hne)]

/-- Witness for C5: an empty bare token and an unrecognised flag before the name, and a
`--name=` token between two bare tokens. -/
theorem C5_flag_mode_project_name_witness :
    (∃ c : Config, resolveConfig (["", "--verbose"] ++ "app" :: ["lib", "--docs"]) = Except.ok c ∧
      c.projectArg = "app") ∧
    (∃ c : Config, resolveConfig (["first"] ++ ("--name=" ++ "app") :: ["second"]) = Except.ok c ∧
      c.projectArg = "app") :=
  ⟨C5_flag_mode_project_name.1 ["", "--verbose"] ["lib", "--docs"] "app" (by decide) (by decide)
      (by decide) (by decide) (by decide) (by decide),
    C5_flag_mode_project_name.2 ["first"] ["second"] "app" (by decide) (by decide) (by decide)⟩

/-- Counterexample to C5 as stated: in `["", "app", "--docs"]` no token begins with `--name=`
and the first token not beginning with `--` is the empty string, yet the project name is
`app`. -/
theorem C5_counterexample :
    flaggedMode ["", "app", "--docs"] = true ∧
    startsWith "" "--name=" = false ∧ startsWith "app" "--name=" = false ∧
    startsWith "--docs" "--name=" = false ∧ startsWith "" "--" = false ∧
    resolveConfig ["", "app", "--docs"] = Except.ok { defaults with projectArg := "app" } ∧
    ("app" : String) ≠ "" := by
  decide

/-! ## Strictness parsing -/

/-- C7 (as amended): for every token `s` that `std::stoi` rejects (after optional leading white
space and one optional sign there is no decimal digit, or the digits denote a value outside the
`int` range), the resolver ends with the exception of `std::stoi` and returns no configuration,
both when `s` is the 5th positional argument and when a flagged-mode list contains
`"--strict=" ++ s`.  Tokens with a readable integer at their head, such as `2abc` and ` 2`,
are not rejected. -/
theorem C7_strictness_parse_failure (s : String) (hs : stoi s = none) :
    (∀ args : List String, flaggedMode args = false → args[4]? = some s →
      resolveConfig args = Except.error ResolveError.stoiThrow) ∧
    (∀ pre post : List String,
      resolveConfig (pre ++ ("--strict=" ++ s) :: post) =
        Except.error ResolveError.stoiThrow) := by
  constructor
  · intro args hflag h4
    rcases args with _ | ⟨a1, _ | ⟨a2, _ | ⟨a3, _ | ⟨a4, _ | ⟨a5, rest⟩⟩⟩⟩⟩
    · simp at h4
    · simp at h4
    · simp at h4
    · simp at h4
    · simp at h4
    · simp at h4
      subst h4
      simp [resolveConfig, hflag, positional, argvAt, hs]
  · intro pre post
    have hkey : startsWith ("--strict=" ++ s) "--" = true :=
      startsWith_trans _ _ _ (startsWith_append_self _ _) (by decide)
    have hflag : flaggedMode (pre ++ ("--strict=" ++ s) :: post) = true := by
      simp only [flaggedMode, List.any_append, List.any_cons, hkey, Bool.true_or, Bool.or_true]
    have hloop : flagLoop defaults (pre ++ ("--strict=" ++ s) :: post) = none := by
      rw [flagLoop_append]
      cases flagLoop defaults pre with
      | none => rfl
      | some c2 => simp only [Option.bind, flagLoop, flagStep_strict_append, hs]
    rw [resolveConfig_flagged _ hflag, hloop]

/-- Witness for C7: the token `abc`, with no digit at all. -/
theorem C7_strictness_parse_failure_witness :
    (∀ args : List String, flaggedMode args = false → args[4]? = some "abc" →
      resolveConfig args = Except.error ResolveError.stoiThrow) ∧
    (∀ pre post : List String,
      resolveConfig (pre ++ ("--strict=" ++ "abc") :: post) =
        Except.error ResolveError.stoiThrow) :=
  C7_strictness_parse_failure "abc" (by decide)

/-- Counterexample to C7 as stated: the tokens `2abc` and ` 2` are not valid integers, yet
the resolver returns a configuration of strictness 2, in positional and in flagged mode. -/
theorem C7_counterexample :
    resolveConfig ["p", "static", "c++", "clang++", "2abc"] =
      Except.ok { defaults with projectArg := "p", strict_compiler := 2 } ∧
    resolveConfig ["p", "static", "c++", "clang++", " 2"] =
      Except.ok { defaults with projectArg := "p", strict_compiler := 2 } ∧
    resolveConfig ["--name=p", "--strict=2abc"] =
      Except.ok { defaults with projectArg := "p", strict_compiler := 2 } ∧
    resolveConfig ["--name=p", "--strict= 2"] =
      Except.ok { defaults with projectArg := "p", strict_compiler := 2 } := by
  decide

/-- The other tokens C7 names are rejected by `std::stoi`: the empty token and values outside
the `int` range; the extreme values of `int` are read. -/
theorem stoi_examples :
    stoi "" = none ∧ stoi "-" = none ∧ stoi "2147483648" = none ∧
    stoi "-2147483649" = none ∧ stoi "2147483647" = some 2147483647 ∧
    stoi "-2147483648" = some (-2147483648) ∧ stoi "+7" = some 7 ∧
    stoi "\t\n 12 3" = some 12 := by
  decide

/-! ## Makefile -/

set_option maxRecDepth 100000

/-- C8 (as amended): for every configuration with build system `make` and strictness 2, any
compiler string, project name and language, the emitted manifest is the Makefile, whose target
`build` has the recipe `compileCommand`; the recipe contains `-fsanitize=address`; it contains
`-shared` when linking is `dynamic`; and when linking is `static` no link flag is added, so
that the recipe contains `-shared` only if the compiler string or the project name itself
contains `-shared`. -/
theorem C8_makefile_strictness_two (projectName : String) (c : Config)
    (hmake : c.build_system = "make") (hstrict : c.strict_compiler = 2) :
    buildFileEffects projectName c = [Effect.write ["Makefile"] (makefileText projectName c)] ∧
    "build:\n\t" ++ compileCommand projectName c ++ "\n\n" ∈ makefileChunks projectName c ∧
    Contains (compileCommand projectName c) "-fsanitize=address" ∧
    (c.linking = "dynamic" → Contains (compileCommand projectName c) "-shared") ∧
    (c.linking = "static" →
      linkingFlag c = "" ∧
      (Contains (compileCommand projectName c) "-shared" ↔
        Contains c.compiler "-shared" ∨ Contains projectName "-shared")) := by
  refine ⟨?_, ?_, ?_, ?_, ?_⟩
  · unfold buildFileEffects
    rw [if_pos hmake]
  · simp [makefileChunks]
  · apply Contains_compileCommand_of_flags
    rw [flags_strict2 c hstrict]
    decide
  · intro hd
    apply Contains_compileCommand_of_linkingFlag
    unfold linkingFlag
    rw [if_pos hd]
    decide
  · intro hst
    have hk : c.linking ≠ "dynamic" := by rw [hst]; decide
    refine ⟨by unfold linkingFlag; rw [if_neg hk], ?_⟩
    by_cases hl : c.language = "c"
    · rw [compileCommand_strict2_c projectName c hstrict hl hk]
      exact Contains_template c.compiler projectName _
        "-Wall -Wextra -pedantic -fsanitize=address -g -std=c11 -o build" "src/main.c" _
        "-shared" (by decide) (by decide) (by decide) (by decide) (by decide) (by decide)
    · rw [compileCommand_strict2_cpp projectName c hstrict hl hk]
      exact Contains_template c.compiler projectName _
        "-Wall -Wextra -pedantic -fsanitize=address -g -std=c++23 -o build" "src/main.cpp" _
        "-shared" (by decide) (by decide) (by decide) (by decide) (by decide) (by decide)

/-- Witness for C8: the project `demo` built with `g++`, static linking. -/
theorem C8_makefile_strictness_two_witness :
    Contains (compileCommand "demo"
      { defaults with compiler := "g++", build_system := "make", strict_compiler := 2 })
      "-fsanitize=address" ∧
    ¬ Contains (compileCommand "demo"
      { defaults with compiler := "g++", build_system := "make", strict_compiler := 2 })
      "-shared" := by
  have h := C8_makefile_strictness_two "demo"
    { defaults with compiler := "g++", build_system := "make", strict_compiler := 2 } rfl rfl
  refine ⟨h.2.2.1, ?_⟩
  rw [(h.2.2.2.2 rfl).2]
  decide

/-- Counterexample to C8 as stated: with static linking, build system `make` and strictness 2,
the recipe for the project `lib-shared` contains `-shared`. -/
theorem C8_counterexample :
    ({ defaults with build_system := "make", strict_compiler := 2 } : Config).linking = "static" ∧
    compileCommand "lib-shared" { defaults with build_system := "make", strict_compiler := 2 } =
      "clang++ -Wall -Wextra -pedantic -fsanitize=address -g -std=c++23 -o build/lib-shared src/main.cpp" ∧
    Contains
      (compileCommand "lib-shared" { defaults with build_system := "make", strict_compiler := 2 })
      "-shared" := by
  decide

/-- C9: for every configuration with build system `make` and strictness 0, 1 or 2, the
recipe of the target `build` is `compiler ++ W ++ L ++ " -g -std=" ++ S ++ " -o build/" ++
projectName ++ " src/" ++ F`, where `W` is empty at level 0, ` -Wall` at level 1 and
` -Wall -Wextra -pedantic -fsanitize=address` at level 2, `L` is ` -shared` for dynamic linking
and empty otherwise, and `(S, F)` is `(c11, main.c)` for the language `c` and
`(c++23, main.cpp)` otherwise; the Makefile declares the phony targets `build`, `run` and
`clear`, `run` depends on `build` and executes `./build/projectName`, and `clear` removes
`build/projectName`. -/
theorem C9_makefile_build_command (projectName : String) (c : Config)
    (hmake : c.build_system = "make")
    (hlevel : c.strict_compiler = 0 ∨ c.strict_compiler = 1 ∨ c.strict_compiler = 2) :
    compileCommand projectName c =
      c.compiler ++
        (if c.strict_compiler = 0 then ""
         else if c.strict_compiler = 1 then " -Wall"
         else " -Wall -Wextra -pedantic -fsanitize=address") ++
        (if c.linking = "dynamic" then " -shared" else "") ++
        " -g -std=" ++ (if c.language = "c" then "c11" else "c++23") ++
        " -o build/" ++ projectName ++
        " src/" ++ (if c.language = "c" then "main.c" else "main.cpp") ∧
    buildFileEffects projectName c = [Effect.write ["Makefile"] (makefileText projectName c)] ∧
    makefileText projectName c =
      ".PHONY: build run clear\n\n" ++
      "build:\n\t" ++ compileCommand projectName c ++ "\n\n" ++
      "run: build\n\t./build/" ++ projectName ++ "\n\n" ++
      "clear:\n\t@rm -f build/" ++ projectName ++ "\n" := by
  refine ⟨?_, ?_, ?_⟩
  · have hflags : flags c =
        (if c.strict_compiler = 0 then ""
         else if c.strict_compiler = 1 then " -Wall"
         else " -Wall -Wextra -pedantic -fsanitize=address") := by
      unfold flags
      rcases hlevel with h | h | h <;> rw [h] <;> rfl
    have e1 : (" -g -std=" ++ "c11" ++ " -o build/" : String) = " -g -std=c11 -o build/" := by
      decide
    have e2 : (" -g -std=" ++ "c++23" ++ " -o build/" : String) = " -g -std=c++23 -o build/" := by
      decide
    unfold compileCommand
    rw [← hflags]
    unfold linkingFlag srcFile
    by_cases hl : c.language = "c"
    · simp only [if_pos hl]
      rw [← e1]
      simp only [String.append_assoc]
    · simp only [if_neg hl]
      rw [← e2]
      simp only [String.append_assoc]
  · unfold buildFileEffects
    rw [if_pos hmake]
  · simp only [makefileText, makefileChunks, String.join, List.foldl, String.append_assoc]
    rfl

/-- Witness for C9: a C project with dynamic linking at strictness 1. -/
theorem C9_makefile_build_command_witness :
    compileCommand "demo"
        { defaults with linking := "dynamic", language := "c", compiler := "gcc",
                        build_system := "make" } =
      "gcc -Wall -shared -g -std=c11 -o build/demo src/main.c" ∧
    makefileText "demo"
        { defaults with linking := "dynamic", language := "c", compiler := "gcc",
                        build_system := "make" } =
      ".PHONY: build run clear\n\nbuild:\n\tgcc -Wall -shared -g -std=c11 -o build/demo src/main.c\n\nrun: build\n\t./build/demo\n\nclear:\n\t@rm -f build/demo\n" := by
  have h := C9_makefile_build_command "demo"
    { defaults with linking := "dynamic", language := "c", compiler := "gcc",
                    build_system := "make" } rfl (Or.inr (Or.inl rfl))
  refine ⟨?_, ?_⟩
  · rw [h.1]
    decide
  · rw [h.2.2, h.1]
    decide

/-! ## Test scaffold -/

/-- C10 (as amended): for every configuration with build system `cmake`, a language other than
`c` and tests requested, CMakeLists.txt is emitted, `enable_testing()` and
`add_subdirectory(test)` are lines of it (the last two the emitter writes), and the file
`test/test.cpp` is emitted after its directory; for every configuration with the language
`c`, tests requested or not, the emitter creates no directory `test`, writes no
`test/test.cpp`, and writes neither line into CMakeLists.txt, so that neither is a line of the
file provided the project name, which is copied into the file, holds no line break. -/
theorem C10_test_scaffold (projectPath projectName : String) (c : Config) :
    (c.build_system = "cmake" → c.language ≠ "c" → c.test_flag = true →
      Effect.write ["CMakeLists.txt"] (cmakeText projectName c) ∈
        emit projectPath projectName c ∧
      IsLineOf "enable_testing()" (cmakeText projectName c) ∧
      IsLineOf "add_subdirectory(test)" (cmakeText projectName c) ∧
      (∃ before : List String, cmakeLines projectName c =
        before ++ ["enable_testing()\n", "add_subdirectory(test)\n"]) ∧
      Effect.create_directories ["test"] ∈ emit projectPath projectName c ∧
      Effect.write ["test", "test.cpp"] testText ∈ emit projectPath projectName c) ∧
    (c.language = "c" →
      (∀ e ∈ emit projectPath projectName c,
        e ≠ Effect.create_directories ["test"] ∧
        ∀ content : String, e ≠ Effect.write ["test", "test.cpp"] content) ∧
      "enable_testing()\n" ∉ cmakeLines projectName c ∧
      "add_subdirectory(test)\n" ∉ cmakeLines projectName c ∧
      (newline ∉ projectName.data →
        ¬ IsLineOf "enable_testing()" (cmakeText projectName c) ∧
        ¬ IsLineOf "add_subdirectory(test)" (cmakeText projectName c))) := by
  have e1 : ("enable_testing()\n" : String) = "enable_testing()" ++ "\n" := by decide
  have e2 : ("add_subdirectory(test)\n" : String) = "add_subdirectory(test)" ++ "\n" := by decide
  constructor
  · intro hb hl ht
    have hmk : c.build_system ≠ "make" := by rw [hb]; decide
    have hlines : ∃ before : List String, cmakeLines projectName c =
        before ++ ["enable_testing()\n", "add_subdirectory(test)\n"] := by
      have hcond : c.language ≠ "c" ∧ c.test_flag = true := ⟨hl, ht⟩
      unfold cmakeLines
      rw [if_pos hcond]
      exact ⟨_, rfl⟩
    obtain ⟨before, hbefore⟩ := hlines
    have hends : ∀ x ∈ before ++ ["enable_testing()\n"], ∃ q, x.data = q ++ [newline] := by
      intro x hx
      have hx2 : x ∈ cmakeLines projectName c := by
        rw [hbefore]
        rcases List.mem_append.mp hx with h | h
        · exact List.mem_append_left _ h
        · rw [List.mem_singleton.mp h]
          simp
      obtain ⟨q, hq, _⟩ := cmakeLines_oneLine projectName c x hx2
      exact ⟨q, hq⟩
    refine ⟨?_, ?_, ?_, ⟨before, hbefore⟩, ?_, ?_⟩
    · simp [emit, buildFileEffects, hmk]
    · unfold cmakeText
      rw [hbefore, e1]
      exact isLineOf_join_append before ["add_subdirectory(test)\n"] "enable_testing()"
        (by decide) (fun x hx => hends x (List.mem_append_left _ hx))
    · unfold cmakeText
      have hsplit : before ++ ["enable_testing()\n", "add_subdirectory(test)\n"] =
          (before ++ ["enable_testing()\n"]) ++ ("add_subdirectory(test)" ++ "\n") :: [] := by
        rw [← e2]; simp
      rw [hbefore, hsplit]
      exact isLineOf_join_append (before ++ ["enable_testing()\n"]) [] "add_subdirectory(test)"
        (by decide) hends
    · simp [emit, testEffects, hl, ht]
    · simp [emit, testEffects, hl, ht]
  · intro hl
    have hno := cmakeLines_c_no_test projectName c hl
    refine ⟨?_, hno.1, hno.2, ?_⟩
    · intro e he
      simp only [emit, mainFileEffects, buildFileEffects, testEffects, gitEffects, doxyEffects,
        hl, if_true, ne_eq, not_true_eq_false, false_and, and_false, if_false, List.append_nil,
        List.mem_append, List.mem_cons, List.mem_singleton, List.not_mem_nil, or_false] at he
      constructor
      · rintro rfl
        revert he
        split_ifs <;> simp
      · rintro content rfl
        revert he
        split_ifs <;> simp
    · intro hn
      have hall : ∀ x ∈ cmakeLines projectName c, ∃ q, x.data = q ++ [newline] ∧ newline ∉ q := by
        intro x hx
        obtain ⟨q, hq, hq2⟩ := cmakeLines_oneLine projectName c x hx
        exact ⟨q, hq, hq2 hn⟩
      constructor
      · intro h
        have hm := mem_of_isLineOf_join _ _ hall h
        rw [← e1] at hm
        exact hno.1 hm
      · intro h
        have hm := mem_of_isLineOf_join _ _ hall h
        rw [← e2] at hm
        exact hno.2 hm

/-- Witness for C10: a C++ CMake project with tests, and the same options for a C project. -/
theorem C10_test_scaffold_witness :
    Effect.write ["test", "test.cpp"] testText ∈
      emit "/work/demo" "demo" { defaults with test_flag := true } ∧
    IsLineOf "enable_testing()" (cmakeText "demo" { defaults with test_flag := true }) ∧
    ¬ IsLineOf "enable_testing()"
      (cmakeText "demo" { defaults with language := "c", test_flag := true }) :=
  ⟨((C10_test_scaffold "/work/demo" "demo" { defaults with test_flag := true }).1
      rfl (by decide) rfl).2.2.2.2.2,
    ((C10_test_scaffold "/work/demo" "demo" { defaults with test_flag := true }).1
      rfl (by decide) rfl).2.1,
    (((C10_test_scaffold "/work/demo" "demo"
      { defaults with language := "c", test_flag := true }).2 rfl).2.2.2 (by decide)).1⟩

/-- Counterexample to C10 as stated: the positional arguments whose first is the project name
made of the three lines `a`, `enable_testing()` and `b`, with the language `c`, resolve to a
configuration for which CMakeLists.txt is written with `enable_testing()` as a line of it, the
project name being copied into the line `project(...)`. -/
theorem C10_counterexample :
    resolveConfig ["a\nenable_testing()\nb", "static", "c"] =
      Except.ok { defaults with projectArg := "a\nenable_testing()\nb", language := "c" } ∧
    (layout ⟨"/home/u", fun _ => false⟩ "a\nenable_testing()\nb").projectName =
      "a\nenable_testing()\nb" ∧
    Effect.write ["CMakeLists.txt"]
        (cmakeText "a\nenable_testing()\nb"
          { defaults with projectArg := "a\nenable_testing()\nb", language := "c" }) ∈
      (main ⟨"/home/u", fun _ => false⟩ ["a\nenable_testing()\nb", "static", "c"]).effects ∧
    IsLineOf "enable_testing()"
      (cmakeText "a\nenable_testing()\nb"
        { defaults with projectArg := "a\nenable_testing()\nb", language := "c" }) := by
  refine ⟨by decide, by decide, by decide, by decide,
    ("cmake_minimum_required(VERSION 3.10)\nproject(a\n" : String).data,
    ((cmakeText "a\nenable_testing()\nb"
      { defaults with projectArg := "a\nenable_testing()\nb", language := "c" }).data.drop 64),
    by decide,
    Or.inr ⟨("cmake_minimum_required(VERSION 3.10)\nproject(a" : String).data, by decide⟩⟩

/-! ## Layout and starter file -/

/-- C11 (as amended): for every resolved configuration, the directories the emitter creates
under the project directory are `src`, `inc`, `vendor` and `build`, in this order, followed
by `test` exactly when the language is not `c` and tests are requested; so the set is exactly
the four fixed directories only when no test scaffold is emitted. -/
theorem C11_created_directories (projectPath projectName : String) (c : Config) :
    createdDirectories (emit projectPath projectName c) =
      [["src"], ["inc"], ["vendor"], ["build"]] ++
        (if c.language ≠ "c" ∧ c.test_flag = true then [["test"]] else []) := by
  unfold emit mainFileEffects buildFileEffects testEffects gitEffects doxyEffects
  split_ifs <;> simp [createdDirectories, directoryOf, List.filterMap_cons, List.filterMap_append]

/-- Counterexample to C11 as stated: with the default language `c++` and tests requested the
emitter creates five directories, `test` among them. -/
theorem C11_counterexample :
    createdDirectories (emit "/work/demo" "demo" { defaults with test_flag := true }) =
      [["src"], ["inc"], ["vendor"], ["build"], ["test"]] := by
  decide

/-- C12: for every resolved configuration the emitter writes exactly one file into `src`:
for the language `c` it is `src/main.c`, a C program whose one statement of output is
`printf("Hello, World!\n")`; for every other language it is `src/main.cpp`, whose one
statement of output is `std::cout << "Hello, World!" << std::endl`; the two files are never
both written. -/
theorem C12_starter_file (projectPath projectName : String) (c : Config) :
    (c.language = "c" →
      starterWrites (emit projectPath projectName c) =
        [Effect.write ["src", "main.c"] mainCText]) ∧
    (c.language ≠ "c" →
      starterWrites (emit projectPath projectName c) =
        [Effect.write ["src", "main.cpp"] mainCppText]) ∧
    mainCText =
      "#include <stdio.h>\n\nint main() \x7b\n    printf(\"Hello, World!\\n\");\n    return 0;\n\x7d\n" ∧
    mainCppText =
      "#include <iostream>\n\nint main() \x7b\n    std::cout << \"Hello, World!\" << std::endl;\n    return 0;\n\x7d\n" ∧
    ¬ ((∃ t1, Effect.write ["src", "main.c"] t1 ∈ emit projectPath projectName c) ∧
       (∃ t2, Effect.write ["src", "main.cpp"] t2 ∈ emit projectPath projectName c)) := by
  have hc : c.language = "c" → starterWrites (emit projectPath projectName c) =
      [Effect.write ["src", "main.c"] mainCText] := by
    intro hl
    unfold emit mainFileEffects buildFileEffects testEffects gitEffects doxyEffects
    simp only [hl, if_true, ne_eq, not_true_eq_false, false_and, and_false, if_false]
    split_ifs <;> simp [starterWrites, isStarterWrite, List.filter_cons, List.filter_append]
  have hcpp : c.language ≠ "c" → starterWrites (emit projectPath projectName c) =
      [Effect.write ["src", "main.cpp"] mainCppText] := by
    intro hl
    unfold emit mainFileEffects buildFileEffects testEffects gitEffects doxyEffects
    simp only [hl, if_false, ne_eq, not_false_eq_true, true_and, and_true]
    split_ifs <;> simp [starterWrites, isStarterWrite, List.filter_cons, List.filter_append]
  refine ⟨hc, hcpp, by decide, by decide, ?_⟩
  rintro ⟨⟨t1, h1⟩, ⟨t2, h2⟩⟩
  have m1 : Effect.write ["src", "main.c"] t1 ∈ starterWrites (emit projectPath projectName c) :=
    List.mem_filter.mpr ⟨h1, rfl⟩
  have m2 : Effect.write ["src", "main.cpp"] t2 ∈ starterWrites (emit projectPath projectName c) :=
    List.mem_filter.mpr ⟨h2, rfl⟩
  by_cases hl : c.language = "c"
  · rw [hc hl] at m2
    simp at m2
  · rw [hcpp hl] at m1
    simp at m1

/-- Witness for C12: the defaults write `src/main.cpp`, the language `c` writes `src/main.c`. -/
theorem C12_starter_file_witness :
    starterWrites (emit "/work/demo" "demo" { defaults with language := "c" }) =
      [Effect.write ["src", "main.c"] mainCText] ∧
    starterWrites (emit "/work/demo" "demo" defaults) =
      [Effect.write ["src", "main.cpp"] mainCppText] :=
  ⟨(C12_starter_file "/work/demo" "demo" { defaults with language := "c" }).1 rfl,
    (C12_starter_file "/work/demo" "demo" defaults).2.1 (by decide)⟩

/-! ## README and Doxyfile -/

/-- C13 (as amended): for every resolved configuration, the emitter writes the section
`## Documentation` into the README if and only if a Doxyfile is emitted, both exactly when
docs are requested and the language is not `c`; it writes the section `## Running Tests` if
and only if `test/test.cpp` is emitted, exactly when tests are requested and the language is
not `c`; the build instructions it writes are the make commands exactly when the manifest
emitted is the Makefile and the cmake commands exactly when it is CMakeLists.txt.  Provided
the project name, which is copied into the README, holds no line break, the headings
`## Documentation` and `## Running Tests` and the commands `make build` and `cmake -B build`
are lines of the README file under the same conditions. -/
theorem C13_readme_agrees_with_files (projectPath projectName : String) (c : Config) :
    Effect.write ["README.md"] (String.join (readmeChunks projectName c)) ∈
      emit projectPath projectName c ∧
    ((docSection ∈ readmeChunks projectName c ↔
        ∃ t, Effect.write ["Doxyfile"] t ∈ emit projectPath projectName c) ∧
      (docSection ∈ readmeChunks projectName c ↔
        (c.documentation = true ∧ c.language ≠ "c"))) ∧
    ((testSection ∈ readmeChunks projectName c ↔
        ∃ t, Effect.write ["test", "test.cpp"] t ∈ emit projectPath projectName c) ∧
      (testSection ∈ readmeChunks projectName c ↔
        (c.language ≠ "c" ∧ c.test_flag = true))) ∧
    ((makeInstructions ∈ readmeChunks projectName c ↔
        ∃ t, Effect.write ["Makefile"] t ∈ emit projectPath projectName c) ∧
      (cmakeInstructions projectName ∈ readmeChunks projectName c ↔
        ∃ t, Effect.write ["CMakeLists.txt"] t ∈ emit projectPath projectName c) ∧
      (makeInstructions ∈ readmeChunks projectName c ↔
        cmakeInstructions projectName ∉ readmeChunks projectName c)) ∧
    (newline ∉ projectName.data →
      (IsLineOf "## Documentation" (readmeText projectName c) ↔
        ∃ t, Effect.write ["Doxyfile"] t ∈ emit projectPath projectName c) ∧
      (IsLineOf "## Running Tests" (readmeText projectName c) ↔
        ∃ t, Effect.write ["test", "test.cpp"] t ∈ emit projectPath projectName c) ∧
      (IsLineOf "make build" (readmeText projectName c) ↔
        ∃ t, Effect.write ["Makefile"] t ∈ emit projectPath projectName c) ∧
      (IsLineOf "cmake -B build" (readmeText projectName c) ↔
        ∃ t, Effect.write ["CMakeLists.txt"] t ∈ emit projectPath projectName c)) := by
  obtain ⟨w1, w2, w3, w4⟩ := emit_writes_iff projectPath projectName c
  obtain ⟨k1, k2, k3, k4⟩ := readmeChunks_mem_iff projectName c
  obtain ⟨l1, l2, l3, l4⟩ := readmeLines_mem_iff projectName c
  refine ⟨?_, ⟨k1.trans w1.symm, k1⟩, ⟨k2.trans w2.symm, k2⟩,
    ⟨k3.trans w3.symm, k4.trans w4.symm, ?_⟩, ?_⟩
  · have h : readmeText projectName c = String.join (readmeChunks projectName c) := rfl
    rw [← h]
    simp [emit]
  · rw [k3, k4]
    exact not_not.symm
  · intro hn
    have e1 : ("## Documentation\n" : String) = "## Documentation" ++ "\n" := by decide
    have e2 : ("## Running Tests\n" : String) = "## Running Tests" ++ "\n" := by decide
    have e3 : ("make build\n" : String) = "make build" ++ "\n" := by decide
    have e4 : ("cmake -B build\n" : String) = "cmake -B build" ++ "\n" := by decide
    refine ⟨?_, ?_, ?_, ?_⟩
    · rw [isLineOf_readme_iff _ _ _ hn, ← e1, l1, w1]
      exact and_iff_right (by decide)
    · rw [isLineOf_readme_iff _ _ _ hn, ← e2, l2, w2]
      exact and_iff_right (by decide)
    · rw [isLineOf_readme_iff _ _ _ hn, ← e3, l3, w3]
      exact and_iff_right (by decide)
    · rw [isLineOf_readme_iff _ _ _ hn, ← e4, l4, w4]
      exact and_iff_right (by decide)

/-- Witness for C13: a C project with docs and tests requested has neither section, a C++
project built with make has the documentation heading and the make commands as lines. -/
theorem C13_readme_agrees_with_files_witness :
    docSection ∉ readmeChunks "demo" { defaults with language := "c", test_flag := true } ∧
    IsLineOf "## Documentation" (readmeText "demo" { defaults with build_system := "make" }) ∧
    IsLineOf "make build" (readmeText "demo" { defaults with build_system := "make" }) := by
  have h1 := C13_readme_agrees_with_files "/work/demo" "demo"
    { defaults with language := "c", test_flag := true }
  have h2 := C13_readme_agrees_with_files "/work/demo" "demo"
    { defaults with build_system := "make" }
  refine ⟨?_, ?_, ?_⟩
  · rw [h1.2.1.2]
    decide
  · exact ((h2.2.2.2.2 (by decide)).1).mpr ⟨doxyText "demo", by decide⟩
  · exact ((h2.2.2.2.2 (by decide)).2.2.1).mpr
      ⟨makefileText "demo" { defaults with build_system := "make" }, by decide⟩

/-- Counterexample to C13 as stated: the positional arguments whose first is the project name
made of the three lines `a`, `## Documentation` and `b`, with the language `c`, resolve to a
configuration for which README.md is written with `## Documentation` as a line of it, the
project name being copied into the title, and no Doxyfile is emitted. -/
theorem C13_counterexample :
    resolveConfig ["a\n## Documentation\nb", "static", "c"] =
      Except.ok { defaults with projectArg := "a\n## Documentation\nb", language := "c" } ∧
    (layout ⟨"/home/u", fun _ => false⟩ "a\n## Documentation\nb").projectName =
      "a\n## Documentation\nb" ∧
    Effect.write ["README.md"]
        (readmeText "a\n## Documentation\nb"
          { defaults with projectArg := "a\n## Documentation\nb", language := "c" }) ∈
      (main ⟨"/home/u", fun _ => false⟩ ["a\n## Documentation\nb", "static", "c"]).effects ∧
    IsLineOf "## Documentation"
      (readmeText "a\n## Documentation\nb"
        { defaults with projectArg := "a\n## Documentation\nb", language := "c" }) ∧
    ¬ ∃ t, Effect.write ["Doxyfile"] t ∈
      (main ⟨"/home/u", fun _ => false⟩ ["a\n## Documentation\nb", "static", "c"]).effects := by
  refine ⟨by decide, by decide, by decide, ⟨by decide, ("# a\n" : String).data,
    ((readmeText "a\n## Documentation\nb"
      { defaults with projectArg := "a\n## Documentation\nb", language := "c" }).data.drop 21),
    by decide, Or.inr ⟨("# a" : String).data, by decide⟩⟩, ?_⟩
  have hm : (main ⟨"/home/u", fun _ => false⟩ ["a\n## Documentation\nb", "static", "c"]).effects =
      emit "/home/u/a\n## Documentation\nb" "a\n## Documentation\nb"
        { defaults with projectArg := "a\n## Documentation\nb", language := "c" } := by
    decide
  rw [hm, (emit_writes_iff _ _ _).1]
  decide

/-! ## The whole program -/

/-- C14: with zero arguments the program returns exit code 1; a run returns exit code 1
exactly when there are no arguments or the arguments are flag-style and leave the project name
empty; and in every run that returns exit code 1 no directory is created, no file is written
and no external command is invoked. -/
theorem C14_usage_error_has_no_effect (env : Env) :
    (main env []).status = ExitStatus.returned 1 ∧
    (∀ args : List String, (main env args).status = ExitStatus.returned 1 →
      (main env args).rootEffects = [] ∧ (main env args).effects = []) ∧
    (∀ args : List String, (main env args).status = ExitStatus.returned 1 ↔
      (args = [] ∨ (flaggedMode args = true ∧
        ∃ c, flagLoop defaults args = some c ∧ c.projectArg = ""))) := by
  refine ⟨by simp [main, resolveConfig], ?_, ?_⟩
  · intro args h
    rcases main_eq env args with ⟨_, hm⟩ | ⟨_, hm⟩ | ⟨c, _, hm⟩
    · rw [hm]; exact ⟨rfl, rfl⟩
    · rw [hm] at h; exact ExitStatus.noConfusion h
    · rw [hm] at h
      have h0 : ExitStatus.returned 0 = ExitStatus.returned 1 := h
      exact absurd h0 (by decide)
  · intro args
    rw [← resolveConfig_usage_iff]
    rcases main_eq env args with ⟨hr, hm⟩ | ⟨hr, hm⟩ | ⟨c, hr, hm⟩
    · rw [hm, hr]; simp
    · rw [hm, hr]; simp
    · rw [hm, hr]; simp

/-- Witness for C14: the invocation `--test`, flag-style without a project name. -/
theorem C14_usage_error_has_no_effect_witness :
    (main ⟨"/home/u", fun _ => false⟩ ["--test"]).rootEffects = [] ∧
    (main ⟨"/home/u", fun _ => false⟩ ["--test"]).effects = [] :=
  (C14_usage_error_has_no_effect ⟨"/home/u", fun _ => false⟩).2.1 ["--test"] (by decide)

/-- C15: when the project argument is `.`, the project path is the current working directory,
the project name is that directory's final path segment and the program creates no directory
for the project root: what it creates is the emitter's directories and files, directly
inside the current directory.  When the argument holds neither `/` nor a backslash and is not
`.`, the project name is the argument and the project path is the current directory joined
with it.  When the argument holds a separator, the project path is the argument and the name
is its final path segment.  The final path segment of a path is what follows its last `/`. -/
theorem C15_project_path_resolution (env : Env) (projectArg : String) :
    (projectArg = "." →
      (layout env projectArg).projectPath = env.current_path ∧
      (layout env projectArg).projectName = filename env.current_path ∧
      (layout env projectArg).rootEffects = [] ∧
      ∀ (args : List String) (c : Config), resolveConfig args = Except.ok c →
        c.projectArg = projectArg →
        (main env args).rootEffects = [] ∧
        (main env args).effects = emit env.current_path (filename env.current_path) c) ∧
    ('/' ∉ projectArg.data → backslash ∉ projectArg.data → projectArg ≠ "." →
      (layout env projectArg).projectName = projectArg ∧
      (layout env projectArg).projectPath = pathAppend env.current_path projectArg) ∧
    (('/' ∈ projectArg.data ∨ backslash ∈ projectArg.data) →
      (layout env projectArg).projectPath = projectArg ∧
      (layout env projectArg).projectName = filename projectArg) ∧
    (∀ p : String, ∃ dir : List Char, p.data = dir ++ (filename p).data ∧
      '/' ∉ (filename p).data ∧ (dir = [] ∨ dir.getLast? = some '/')) := by
  refine ⟨?_, ?_, ?_, filename_spec⟩
  · intro hdot
    have hl : layout env projectArg =
        { projectPath := env.current_path, projectName := filename env.current_path,
          rootEffects := [] } := by
      unfold layout
      rw [if_pos hdot]
    refine ⟨by rw [hl], by rw [hl], by rw [hl], ?_⟩
    intro args c hr hc
    rcases main_eq env args with ⟨hr2, _⟩ | ⟨hr2, _⟩ | ⟨c2, hr2, hm⟩
    · rw [hr] at hr2; exact Except.noConfusion hr2
    · rw [hr] at hr2; exact Except.noConfusion hr2
    · rw [hr] at hr2
      cases hr2
      rw [hm, hc, hl]
      exact ⟨rfl, rfl⟩
  · intro h1 h2 h3
    have hsep : ¬ ('/' ∈ projectArg.data ∨ backslash ∈ projectArg.data) := by
      rintro (h | h)
      · exact h1 h
      · exact h2 h
    unfold layout
    rw [if_neg h3, if_neg hsep]
    exact ⟨rfl, rfl⟩
  · intro hsep
    have hdot : projectArg ≠ "." := by
      rintro rfl
      revert hsep
      decide
    unfold layout
    rw [if_neg hdot, if_pos hsep]
    exact ⟨rfl, rfl⟩

/-- Witness for C15: the arguments `.`, `demo` and `work/demo` in the directory `/home/u/proj`. -/
theorem C15_project_path_resolution_witness :
    (layout ⟨"/home/u/proj", fun _ => false⟩ ".").projectName = "proj" ∧
    (layout ⟨"/home/u/proj", fun _ => false⟩ ".").rootEffects = [] ∧
    (layout ⟨"/home/u/proj", fun _ => false⟩ "demo").projectPath = "/home/u/proj/demo" ∧
    (layout ⟨"/home/u/proj", fun _ => false⟩ "work/demo").projectName = "demo" := by
  have h1 := (C15_project_path_resolution ⟨"/home/u/proj", fun _ => false⟩ ".").1 rfl
  have h2 := (C15_project_path_resolution ⟨"/home/u/proj", fun _ => false⟩ "demo").2.1
    (by decide) (by decide) (by decide)
  have h3 := (C15_project_path_resolution ⟨"/home/u/proj", fun _ => false⟩ "work/demo").2.2.1
    (Or.inl (by decide))
  refine ⟨?_, h1.2.2.1, ?_, ?_⟩
  · rw [h1.2.1]; decide
  · rw [h2.2]; decide
  · rw [h3.2]; decide

/-! ## Invariants of the resolved configuration -/

/-- C16, the code at the failing input: the single positional argument `""` resolves to a
configuration whose project argument is empty and the program goes on to return 0, whereas
the same empty name followed by a flag is refused with the usage error. -/
theorem C16_positional_accepts_empty_name :
    resolveConfig [""] = Except.ok { defaults with projectArg := "" } ∧
    (main ⟨"/home/u", fun _ => false⟩ [""]).status = ExitStatus.returned 0 ∧
    resolveConfig ["", "--docs"] = Except.error ResolveError.usage := by
  decide

/-- C17 (as amended): for every argument list for which the resolver returns a configuration,
the strictness is an `int`, not necessarily 0, 1 or 2: in positional mode it is 1 when there
is no 5th argument and otherwise the integer `std::stoi` reads from the 5th argument; in
flagged mode it is 1 when no token begins with `--strict=` and otherwise the integer
`std::stoi` reads from the value of the last token that begins with `--strict=`; and every
value other than 1 and 2 adds no flags to the Makefile recipe and no flags line to
CMakeLists.txt, as 0 does. -/
theorem C17_strictness_is_any_int (args : List String) (c : Config)
    (h : resolveConfig args = Except.ok c) :
    INT_MIN ≤ c.strict_compiler ∧ c.strict_compiler ≤ INT_MAX ∧
    (flaggedMode args = false →
      match args[4]? with
      | some a5 => stoi a5 = some c.strict_compiler
      | none => c.strict_compiler = 1) ∧
    (flaggedMode args = true →
      ((∀ t ∈ args, startsWith t "--strict=" = false) → c.strict_compiler = 1) ∧
      (∀ (pre post : List String) (t : String), args = pre ++ t :: post →
        startsWith t "--strict=" = true →
        (∀ u ∈ post, startsWith u "--strict=" = false) →
        stoi (substr t 9) = some c.strict_compiler)) ∧
    (c.strict_compiler ≠ 1 → c.strict_compiler ≠ 2 →
      flags c = "" ∧
      ∀ projectName : String, (cmakeLines projectName c).filter isFlagsLine = []) := by
  have hpos : flaggedMode args = false →
      match args[4]? with
      | some a5 => stoi a5 = some c.strict_compiler
      | none => c.strict_compiler = 1 :=
    fun hflag => resolveConfig_positional_strict args c hflag h
  have hflg : flaggedMode args = true →
      ((∀ t ∈ args, startsWith t "--strict=" = false) → c.strict_compiler = 1) ∧
      (∀ (pre post : List String) (t : String), args = pre ++ t :: post →
        startsWith t "--strict=" = true →
        (∀ u ∈ post, startsWith u "--strict=" = false) →
        stoi (substr t 9) = some c.strict_compiler) := by
    intro hflag
    obtain ⟨hl, _⟩ := resolveConfig_flagged_projectArg args c hflag h
    constructor
    · intro hnone
      exact flagLoop_strict_kept args defaults c hnone hl
    · intro pre post t hargs ht hpost
      rw [hargs] at hl
      exact flagLoop_strict_last pre post t defaults c ht hpost hl
  have hrange : INT_MIN ≤ c.strict_compiler ∧ c.strict_compiler ≤ INT_MAX := by
    cases hf : flaggedMode args with
    | false =>
      have h4 := hpos hf
      cases h5 : args[4]? with
      | none =>
        rw [h5] at h4
        simp only at h4
        rw [h4]
        decide
      | some a5 =>
        rw [h5] at h4
        exact stoi_range a5 _ h4
    | true =>
      obtain ⟨hl, _⟩ := resolveConfig_flagged_projectArg args c hf h
      rcases (flagLoop_fields args defaults c hl).2.2.2 with h1 | ⟨t, _, _, ht⟩
      · rw [h1]
        decide
      · exact stoi_range _ _ ht
  refine ⟨hrange.1, hrange.2, hpos, hflg, ?_⟩
  intro h1 h2
  have hf : flags c = "" := by
    unfold flags
    rw [if_neg h1, if_neg h2]
  refine ⟨hf, ?_⟩
  intro projectName
  rw [cmakeLines_flag_lines]
  unfold mirroredFlagLines
  rw [if_pos hf]

/-- Witness for C17: the 5th positional argument `7`, and in flagged mode two `--strict=`
tokens, of which the last one, `0`, is the strictness. -/
theorem C17_strictness_is_any_int_witness :
    (stoi "7" = some 7 ∧
      flags { defaults with projectArg := "p", strict_compiler := 7 } = "") ∧
    stoi (substr "--strict=0" 9) =
      some ({ defaults with projectArg := "p", strict_compiler := 0 } : Config).strict_compiler := by
  have h := C17_strictness_is_any_int ["p", "static", "c++", "clang++", "7"]
    { defaults with projectArg := "p", strict_compiler := 7 } (by decide)
  have g := C17_strictness_is_any_int ["--name=p", "--strict=2", "--strict=0"]
    { defaults with projectArg := "p", strict_compiler := 0 } (by decide)
  exact ⟨⟨h.2.2.1 (by decide), (h.2.2.2.2 (by decide) (by decide)).1⟩,
    (g.2.2.2.1 (by decide)).2 ["--name=p", "--strict=2"] [] "--strict=0" rfl (by decide)
      (by decide)⟩

/-- Counterexample to C17 as stated: the positional strictness `7` and the flag `--strict=-3`
resolve to configurations whose strictness is 7 and -3. -/
theorem C17_counterexample :
    resolveConfig ["p", "static", "c++", "clang++", "7"] =
      Except.ok { defaults with projectArg := "p", strict_compiler := 7 } ∧
    resolveConfig ["--name=p", "--strict=-3"] =
      Except.ok { defaults with projectArg := "p", strict_compiler := -3 } ∧
    (7 : Int) ≠ 0 ∧ (7 : Int) ≠ 1 ∧ (7 : Int) ≠ 2 := by
  decide

/-- C19: for every argument list parsed in flagged mode that resolves to a configuration,
`init_git_repo` and `documentation` are true whether or not `--git` and `--docs` are present,
so that `git init` is run and `.gitignore` is written; `test_flag` is true exactly when the
token `--test` is present. -/
theorem C19_flag_mode_git_docs_always_on (args : List String) (c : Config)
    (hflag : flaggedMode args = true) (h : resolveConfig args = Except.ok c) :
    c.init_git_repo = true ∧ c.documentation = true ∧
    (c.test_flag = true ↔ "--test" ∈ args) ∧
    (∀ projectPath projectName : String,
      Effect.write [".gitignore"] gitignoreText ∈ emit projectPath projectName c ∧
      Effect.system ("cd " ++ projectPath ++ " && git init") ∈
        emit projectPath projectName c) := by
  obtain ⟨hl, _⟩ := resolveConfig_flagged_projectArg args c hflag h
  obtain ⟨g1, g2, g3, _⟩ := flagLoop_fields args defaults c hl
  have hgit : c.init_git_repo = true := g1 rfl
  refine ⟨hgit, g2 rfl, ?_, ?_⟩
  · rw [g3]
    constructor
    · rintro (h1 | h1)
      · exact absurd h1 (by decide)
      · exact h1
    · exact Or.inr
  · intro projectPath projectName
    simp [emit, gitEffects, hgit]

/-- Witness for C19: flag-style arguments without `--git`, `--docs` or `--test`. -/
theorem C19_flag_mode_git_docs_always_on_witness :
    ({ defaults with projectArg := "p", linking := "dynamic" } : Config).init_git_repo = true ∧
    ({ defaults with projectArg := "p", linking := "dynamic" } : Config).documentation = true ∧
    (({ defaults with projectArg := "p", linking := "dynamic" } : Config).test_flag = true ↔
      "--test" ∈ ["p", "--link=dynamic"]) := by
  have h := C19_flag_mode_git_docs_always_on ["p", "--link=dynamic"]
    { defaults with projectArg := "p", linking := "dynamic" } (by decide) (by decide)
  exact ⟨h.1, h.2.1, h.2.2.1⟩

/-! ## Build manifest -/

/-- C18: for every language and every integer strictness, the lines of CMakeLists.txt that
set `CMAKE_C_FLAGS` (language `c`) or `CMAKE_CXX_FLAGS` (otherwise) append exactly `flags`,
the flags the Makefile build command carries for the same strictness (` -Wall` at 1,
` -Wall -Wextra -pedantic -fsanitize=address` at 2), and there is no such line when `flags` is
empty; the standard declared is C 11 for `c` and C++ 23 otherwise, as in the `-std` flag of
the Makefile build command. -/
theorem C18_cmake_flags_mirror_makefile (projectName : String) (c : Config) :
    (cmakeLines projectName c).filter isFlagsLine = mirroredFlagLines c ∧
    compileCommand projectName c =
      c.compiler ++ flags c ++ linkingFlag c ++
        (if c.language = "c" then " -g -std=c11 -o build/" else " -g -std=c++23 -o build/") ++
        projectName ++ " src/" ++ srcFile c ∧
    (c.strict_compiler = 1 → flags c = " -Wall") ∧
    (c.strict_compiler = 2 → flags c = " -Wall -Wextra -pedantic -fsanitize=address") ∧
    (c.strict_compiler ≠ 1 → c.strict_compiler ≠ 2 →
      flags c = "" ∧ (cmakeLines projectName c).filter isFlagsLine = []) ∧
    (c.language = "c" →
      "set(CMAKE_C_STANDARD 11)\n" ∈ cmakeLines projectName c ∧
      "set(CMAKE_CXX_STANDARD 23)\n" ∉ cmakeLines projectName c) ∧
    (c.language ≠ "c" →
      "set(CMAKE_CXX_STANDARD 23)\n" ∈ cmakeLines projectName c ∧
      "set(CMAKE_C_STANDARD 11)\n" ∉ cmakeLines projectName c) := by
  have hfl := cmakeLines_flag_lines projectName c
  have hmC := cmakeLines_mem_fixed projectName c "set(CMAKE_C_STANDARD 11)\n"
    (by decide) (by decide) (by decide) (by decide)
  have hmX := cmakeLines_mem_fixed projectName c "set(CMAKE_CXX_STANDARD 23)\n"
    (by decide) (by decide) (by decide) (by decide)
  have nC := not_mem_mirroredFlagLines projectName c "set(CMAKE_C_STANDARD 11)\n" (by decide)
  have nX := not_mem_mirroredFlagLines projectName c "set(CMAKE_CXX_STANDARD 23)\n" (by decide)
  refine ⟨hfl, compileCommand_form projectName c, ?_, ?_, ?_, ?_, ?_⟩
  · intro h1
    unfold flags
    rw [if_pos h1]
  · intro h2
    exact flags_strict2 c h2
  · intro h1 h2
    have hf : flags c = "" := by
      unfold flags
      rw [if_neg h1, if_neg h2]
    refine ⟨hf, ?_⟩
    rw [hfl]
    unfold mirroredFlagLines
    rw [if_pos hf]
  · intro hl
    constructor
    · rw [(hmC.1 hl)]
      simp
    · rw [(hmX.1 hl)]
      simp only [List.mem_append, List.mem_cons, List.mem_singleton, List.not_mem_nil, nX,
        or_false, false_or]
      decide
  · intro hl
    constructor
    · rw [(hmX.2 hl)]
      simp
    · rw [(hmC.2 hl)]
      simp only [List.mem_append, List.mem_cons, List.mem_singleton, List.not_mem_nil, nC,
        or_false, false_or]
      split_ifs <;> simp

/-- Witness for C18: a C project at strictness 2. -/
theorem C18_cmake_flags_mirror_makefile_witness :
    (cmakeLines "demo" { defaults with language := "c", strict_compiler := 2 }).filter
        isFlagsLine =
      ["set(CMAKE_C_FLAGS \"$\x7bCMAKE_C_FLAGS\x7d -Wall -Wextra -pedantic -fsanitize=address\")\n"] ∧
    flags { defaults with language := "c", strict_compiler := 2 } =
      " -Wall -Wextra -pedantic -fsanitize=address" ∧
    "set(CMAKE_C_STANDARD 11)\n" ∈
      cmakeLines "demo" { defaults with language := "c", strict_compiler := 2 } := by
  have h := C18_cmake_flags_mirror_makefile "demo"
    { defaults with language := "c", strict_compiler := 2 }
  refine ⟨?_, h.2.2.2.1 rfl, (h.2.2.2.2.2.1 rfl).1⟩
  rw [h.1]
  decide

/-- C20: for every resolved configuration, whatever the language string and the build system,
the emitter writes one starter file, `src/main.c` or `src/main.cpp`; the Makefile build
command ends with the path of that file, the `add_executable` line of CMakeLists.txt names
that path, and CMakeLists.txt enables the language `C` exactly when the file is `main.c` and
`CXX` exactly when it is `main.cpp`. -/
theorem C20_manifest_names_the_starter_file (projectPath projectName : String) (c : Config) :
    starterWrites (emit projectPath projectName c) =
      [Effect.write ["src", srcFile c] (if c.language = "c" then mainCText else mainCppText)] ∧
    (srcFile c = "main.c" ∨ srcFile c = "main.cpp") ∧
    (∃ pre : String, compileCommand projectName c = pre ++ " src/" ++ srcFile c) ∧
    "add_executable(" ++ projectName ++ " " ++ ("src/" ++ srcFile c) ++ ")\n" ∈
      cmakeLines projectName c ∧
    ("enable_language(C)\n" ∈ cmakeLines projectName c ↔ srcFile c = "main.c") ∧
    ("enable_language(CXX)\n" ∈ cmakeLines projectName c ↔ srcFile c = "main.cpp") ∧
    (c.build_system = "make" →
      Effect.write ["Makefile"] (makefileText projectName c) ∈ emit projectPath projectName c ∧
      "build:\n\t" ++ compileCommand projectName c ++ "\n\n" ∈ makefileChunks projectName c) ∧
    (c.build_system ≠ "make" →
      Effect.write ["CMakeLists.txt"] (cmakeText projectName c) ∈
        emit projectPath projectName c) := by
  have hmC := cmakeLines_mem_fixed projectName c "enable_language(C)\n"
    (by decide) (by decide) (by decide) (by decide)
  have hmX := cmakeLines_mem_fixed projectName c "enable_language(CXX)\n"
    (by decide) (by decide) (by decide) (by decide)
  have nC := not_mem_mirroredFlagLines projectName c "enable_language(C)\n" (by decide)
  have nX := not_mem_mirroredFlagLines projectName c "enable_language(CXX)\n" (by decide)
  have e1 : ("src/" ++ "main.c" : String) = "src/main.c" := by decide
  have e2 : ("src/" ++ "main.cpp" : String) = "src/main.cpp" := by decide
  have d1 : ("main.cpp" : String) ≠ "main.c" := by decide
  have d2 : ("main.c" : String) ≠ "main.cpp" := by decide
  refine ⟨starterWrites_emit projectPath projectName c, ?_, ?_, ?_, ?_, ?_, ?_, ?_⟩
  · unfold srcFile
    split_ifs
    · exact Or.inl rfl
    · exact Or.inr rfl
  · rw [compileCommand_form]
    exact ⟨_, rfl⟩
  · by_cases hl : c.language = "c"
    · unfold cmakeLines srcFile
      simp only [hl, if_true, e1]
      simp
    · unfold cmakeLines srcFile
      simp only [hl, if_false, e2]
      simp
  · by_cases hl : c.language = "c"
    · rw [hmC.1 hl]
      unfold srcFile
      simp [hl]
    · rw [hmC.2 hl]
      unfold srcFile
      simp only [hl, if_false, List.mem_append, List.mem_cons, List.mem_singleton,
        List.not_mem_nil, nC, or_false, false_or, d1, iff_false]
      split_ifs <;> simp
  · by_cases hl : c.language = "c"
    · rw [hmX.1 hl]
      unfold srcFile
      simp only [hl, if_true, List.mem_append, List.mem_cons, List.mem_singleton,
        List.not_mem_nil, nX, or_false, false_or, d2, iff_false]
      decide
    · rw [hmX.2 hl]
      unfold srcFile
      simp [hl]
  · intro hm
    constructor
    · simp [emit, buildFileEffects, hm]
    · simp [makefileChunks]
  · intro hm
    simp [emit, buildFileEffects, hm]

/-- Witness for C20: a C project built with make. -/
theorem C20_manifest_names_the_starter_file_witness :
    starterWrites (emit "/work/demo" "demo"
        { defaults with language := "c", build_system := "make" }) =
      [Effect.write ["src", "main.c"] mainCText] ∧
    (∃ pre : String,
      compileCommand "demo" { defaults with language := "c", build_system := "make" } =
        pre ++ " src/" ++ "main.c") ∧
    Effect.write ["Makefile"]
        (makefileText "demo" { defaults with language := "c", build_system := "make"}) ∈
      emit "/work/demo" "demo" { defaults with language := "c", build_system := "make" } := by
  have h := C20_manifest_names_the_starter_file "/work/demo" "demo"
    { defaults with language := "c", build_system := "make" }
  exact ⟨h.1, h.2.2.1, (h.2.2.2.2.2.2.1 rfl).1⟩

end Cini
